import Mathlib

set_option linter.unreachableTactic false
set_option linter.unusedTactic false

/-!
Verification of the condition-evaluation and job-execution engine of the
"Robotic-Process-Automation-Enhanced" autoclicker repository.

The development shallowly embeds the Python code of
`core/job_executor.py`, `core/trigger.py`, `core/condition_manager.py`,
`core/condition.py` and `python_csharp_bridge.py` as executable Lean
functions and proves the claimed properties about them.

Modelling conventions:
* `action.execute(...)` performs external OS interaction; its boolean
  condition-met results are supplied by an oracle `List Bool` indexed by a
  global invocation counter (each call to `execute` consumes one position,
  missing positions read as `false`).
* The stop event / `_is_executing` flag is never set in the modelled runs
  (single-threaded semantics of the interpreter itself).
* Python `float` percentages and thresholds are modelled as `ℚ` (only
  order comparisons and sums occur in the verified logic).
* Python exceptions are modelled with `Except`, dictionaries with
  association lists, and `None`-able fields with `Option`.
-/

namespace RPA

/-- Constant `JobExecutor._MAX_FALLBACK_DEPTH` from `core/job_executor.py`. -/
def MAX_FALLBACK_DEPTH : Nat := 3

/-- Constant `JobExecutor._ABSOLUTE_ACTION_MAX_RETRIES` from `core/job_executor.py`. -/
def ABSOLUTE_ACTION_MAX_RETRIES : Nat := 10

/-- Constant `JobExecutor._ABSOLUTE_ACTION_RETRY_INTERVAL` (seconds) from
`core/job_executor.py`. -/
def ABSOLUTE_ACTION_RETRY_INTERVAL : ℚ := 1/2

/-- An `Action` as consumed by `JobExecutor` (`core/job_executor.py`): its
type string, optional shared-condition id, the two branch targets
`next_action_index_if_condition_met` / `next_action_index_if_condition_not_met`
(`Option Int`: `none` models a missing/non-int field, negative ints are
possible values), the `is_absolute` flag and the (possibly empty) list of
fallback actions (`fallback_action_sequence`, already materialised through
`create_action`). -/
inductive RAction : Type where
  | mk (atype : String) (condId : Option String)
       (nextMet : Option Int) (nextNotMet : Option Int)
       (isAbsolute : Bool) (fallback : List RAction) : RAction

/-- Field `action.type`. -/
def RAction.atype : RAction → String
  | .mk t _ _ _ _ _ => t

/-- Field `action.condition_id`. -/
def RAction.condId : RAction → Option String
  | .mk _ c _ _ _ _ => c

/-- Field `action.next_action_index_if_condition_met`. -/
def RAction.nextMet : RAction → Option Int
  | .mk _ _ m _ _ _ => m

/-- Field `action.next_action_index_if_condition_not_met`. -/
def RAction.nextNotMet : RAction → Option Int
  | .mk _ _ _ m _ _ => m

/-- Field `action.is_absolute`. -/
def RAction.isAbsolute : RAction → Bool
  | .mk _ _ _ _ b _ => b

/-- Field `action.fallback_action_sequence`. -/
def RAction.fallback : RAction → List RAction
  | .mk _ _ _ _ _ f => f

theorem RAction.sizeOf_fallback_lt (a : RAction) : sizeOf a.fallback < sizeOf a := by
  cases a with
  | mk t c m m2 b f => simp [RAction.fallback]

/-- The Python guard
`isinstance(idx, int) and idx >= 0` applied to a branch-target field:
the jump target used when the guard holds, the default
(`current_action_index + 1`) otherwise. -/
def jumpTarget (field : Option Int) (default : Int) : Int :=
  match field with
  | some n => if 0 ≤ n then n else default
  | none => default

/-- One invocation of `action.execute(...)`: the oracle value at the global
invocation counter `t` (absent positions read `false`). -/
def execResultAt (oracle : List Bool) (t : Nat) : Bool :=
  oracle.getD t false

/-- Result of `JobExecutor._execute_action_with_fallback`: the returned pair
(`condition_met_for_main_or_successful_fallback`, next action index), the
global invocation counter after the call, the number of direct
`action.execute` invocations on the processed action, and the number of
direct `_ABSOLUTE_ACTION_RETRY_INTERVAL` waits between its retries. -/
structure ExecResult where
  met : Bool
  next : Int
  tEnd : Nat
  calls : Nat
  waits : Nat
deriving Repr, DecidableEq

/-- Result of the fallback `for` loop inside
`_execute_action_with_fallback`: `any_fallback_successful`, the invocation
counter afterwards, and how many fallback actions were recursively executed. -/
structure FBResult where
  success : Bool
  tEnd : Nat
  tried : Nat
deriving Repr, DecidableEq

mutual

/-- `JobExecutor._execute_action_with_fallback` (`core/job_executor.py`),
with the stop event never set and no exceptions raised by `execute`:
bail out at `fallback_depth > _MAX_FALLBACK_DEPTH`, otherwise run the
`while absolute_retries_left > 0` loop. -/
def execWithFallback (a : RAction) (idx : Int) (depth : Nat)
    (oracle : List Bool) (t : Nat) : ExecResult :=
  if depth > MAX_FALLBACK_DEPTH then
    ⟨false, idx + 1, t, 0, 0⟩
  else
    attemptLoop a idx depth oracle t
      (if a.isAbsolute then ABSOLUTE_ACTION_MAX_RETRIES else 1) 0 0
termination_by (sizeOf a, 2, 0)
decreasing_by
  all_goals simp_wf
  all_goals first
    | (apply Prod.Lex.right; exact Prod.Lex.left _ _ (by omega))
    | (apply Prod.Lex.right; exact Prod.Lex.right _ (by omega))
    | exact Prod.Lex.left _ _ (RAction.sizeOf_fallback_lt a)
    | exact Prod.Lex.left _ _ (by omega)
    | exact Prod.Lex.left _ _ (by simp; all_goals omega)

/-- One iteration of the retry `while` loop of
`_execute_action_with_fallback` (entered with `retriesLeft > 0`):
invoke `execute`; on success return through the condition-met branch; on
failure either retry (absolute action with retries remaining, after one
retry-interval wait) or fall through to the fallback sequence and the
condition-not-met branch. `calls`/`waits` accumulate the direct `execute`
invocations and retry waits so far. -/
def attemptLoop (a : RAction) (idx : Int) (depth : Nat)
    (oracle : List Bool) (t : Nat) (retriesLeft : Nat)
    (calls waits : Nat) : ExecResult :=
  if execResultAt oracle t then
    ⟨true, jumpTarget a.nextMet (idx + 1), t + 1, calls + 1, waits⟩
  else
    if a.isAbsolute ∧ retriesLeft - 1 > 0 then
      attemptLoop a idx depth oracle (t + 1) (retriesLeft - 1) (calls + 1) (waits + 1)
    else
      if a.fallback.isEmpty then
        ⟨false, jumpTarget a.nextNotMet (idx + 1), t + 1, calls + 1, waits⟩
      else
        ⟨(runFallbacks a.fallback idx depth oracle (t + 1)).success,
         jumpTarget a.nextNotMet (idx + 1),
         (runFallbacks a.fallback idx depth oracle (t + 1)).tEnd, calls + 1, waits⟩
termination_by (sizeOf a, 1, retriesLeft)
decreasing_by
  all_goals simp_wf
  all_goals first
    | (apply Prod.Lex.right; exact Prod.Lex.left _ _ (by omega))
    | (apply Prod.Lex.right; exact Prod.Lex.right _ (by omega))
    | exact Prod.Lex.left _ _ (RAction.sizeOf_fallback_lt a)
    | exact Prod.Lex.left _ _ (by omega)
    | exact Prod.Lex.left _ _ (by simp; all_goals omega)

/-- The `for i, fallback_action_data in enumerate(...)` loop of
`_execute_action_with_fallback`: run each fallback action through
`_execute_action_with_fallback` at `fallback_depth + 1`, short-circuiting
at the first one whose result reports condition met. -/
def runFallbacks (l : List RAction) (idx : Int) (depth : Nat)
    (oracle : List Bool) (t : Nat) : FBResult :=
  match l with
  | [] => ⟨false, t, 0⟩
  | fb :: rest =>
    if (execWithFallback fb idx (depth + 1) oracle t).met then
      ⟨true, (execWithFallback fb idx (depth + 1) oracle t).tEnd, 1⟩
    else
      ⟨(runFallbacks rest idx depth oracle (execWithFallback fb idx (depth + 1) oracle t).tEnd).success,
       (runFallbacks rest idx depth oracle (execWithFallback fb idx (depth + 1) oracle t).tEnd).tEnd,
       (runFallbacks rest idx depth oracle (execWithFallback fb idx (depth + 1) oracle t).tEnd).tried + 1⟩
termination_by (sizeOf l, 0, 0)
decreasing_by
  all_goals simp_wf
  all_goals first
    | (apply Prod.Lex.right; exact Prod.Lex.left _ _ (by omega))
    | (apply Prod.Lex.right; exact Prod.Lex.right _ (by omega))
    | exact Prod.Lex.left _ _ (RAction.sizeOf_fallback_lt a)
    | exact Prod.Lex.left _ _ (by omega)
    | exact Prod.Lex.left _ _ (by simp; all_goals omega)

end

theorem attemptLoop_eq_met (a : RAction) (idx : Int) (depth : Nat) (oracle : List Bool)
    (t retries calls waits : Nat) (h : execResultAt oracle t = true) :
    attemptLoop a idx depth oracle t retries calls waits =
      ⟨true, jumpTarget a.nextMet (idx + 1), t + 1, calls + 1, waits⟩ := by
  rw [attemptLoop.eq_def]
  simp [h]

theorem attemptLoop_eq_retry (a : RAction) (idx : Int) (depth : Nat) (oracle : List Bool)
    (t retries calls waits : Nat) (h : execResultAt oracle t = false)
    (h2 : a.isAbsolute = true) (h3 : retries - 1 > 0) :
    attemptLoop a idx depth oracle t retries calls waits =
      attemptLoop a idx depth oracle (t + 1) (retries - 1) (calls + 1) (waits + 1) := by
  rw [attemptLoop.eq_def]
  simp [h, h2, h3]

theorem attemptLoop_eq_fall (a : RAction) (idx : Int) (depth : Nat) (oracle : List Bool)
    (t retries calls waits : Nat) (h : execResultAt oracle t = false)
    (h2 : ¬(a.isAbsolute = true ∧ retries - 1 > 0)) :
    attemptLoop a idx depth oracle t retries calls waits =
      (if a.fallback.isEmpty then
        ⟨false, jumpTarget a.nextNotMet (idx + 1), t + 1, calls + 1, waits⟩
       else
        ⟨(runFallbacks a.fallback idx depth oracle (t + 1)).success,
         jumpTarget a.nextNotMet (idx + 1),
         (runFallbacks a.fallback idx depth oracle (t + 1)).tEnd, calls + 1, waits⟩) := by
  rw [attemptLoop.eq_def]
  simp only [h, Bool.false_eq_true, if_false, if_neg h2]

/-- Full characterisation of the retry `while` loop of
`_execute_action_with_fallback`: some number `k` of `execute` invocations
is consumed (`1 ≤ k ≤ retries`), all but the last yielding `false`; on a
final `true` the loop returns through the condition-met branch, otherwise
(`k = retries` for an absolute action, `k = 1` for a non-absolute one) it
falls through to the fallback sequence and the condition-not-met branch. -/
theorem attemptLoop_spec (a : RAction) (idx : Int) (depth : Nat) (oracle : List Bool) :
    ∀ retries, 1 ≤ retries → ∀ t calls waits,
    ∃ k, 1 ≤ k ∧ k ≤ retries ∧
      (∀ i, i + 1 < k → execResultAt oracle (t + i) = false) ∧
      ((execResultAt oracle (t + (k - 1)) = true ∧
        attemptLoop a idx depth oracle t retries calls waits =
          ⟨true, jumpTarget a.nextMet (idx + 1), t + k, calls + k, waits + (k - 1)⟩)
       ∨
       (execResultAt oracle (t + (k - 1)) = false ∧
        (a.isAbsolute = true → k = retries) ∧ (a.isAbsolute = false → k = 1) ∧
        attemptLoop a idx depth oracle t retries calls waits =
          ⟨(if a.fallback.isEmpty then false
            else (runFallbacks a.fallback idx depth oracle (t + k)).success),
           jumpTarget a.nextNotMet (idx + 1),
           (if a.fallback.isEmpty then t + k
            else (runFallbacks a.fallback idx depth oracle (t + k)).tEnd),
           calls + k, waits + (k - 1)⟩)) := by
  intro retries
  induction retries using Nat.strong_induction_on with
  | _ retries ih =>
    intro hret t calls waits
    by_cases hmet : execResultAt oracle t = true
    · refine ⟨1, le_refl 1, hret, by omega, Or.inl ?_⟩
      rw [attemptLoop_eq_met a idx depth oracle t retries calls waits hmet]
      simpa using hmet
    · simp only [Bool.not_eq_true] at hmet
      by_cases habs : a.isAbsolute = true ∧ retries - 1 > 0
      · obtain ⟨k', hk1, hk2, hprev, hfin⟩ :=
          ih (retries - 1) (by omega) (by omega) (t + 1) (calls + 1) (waits + 1)
        have hstep := attemptLoop_eq_retry a idx depth oracle t retries calls waits hmet habs.1 habs.2
        refine ⟨k' + 1, by omega, by omega, ?_, ?_⟩
        · intro i hi
          match i with
          | 0 => simpa using hmet
          | j + 1 =>
            have hp := hprev j (by omega)
            have e : t + 1 + j = t + (j + 1) := by omega
            rwa [e] at hp
        · have e1 : t + 1 + (k' - 1) = t + (k' + 1 - 1) := by omega
          have e2 : t + 1 + k' = t + (k' + 1) := by omega
          rw [hstep]
          cases hfin with
          | inl h =>
            left
            refine ⟨by rw [← e1]; exact h.1, ?_⟩
            rw [h.2]
            simp only [ExecResult.mk.injEq, true_and, and_true]
            omega
          | inr h =>
            right
            refine ⟨by rw [← e1]; exact h.1, ?_, ?_, ?_⟩
            · intro _; have := h.2.1 habs.1; omega
            · intro hna; rw [hna] at habs; simp at habs
            · rw [h.2.2.2]
              rw [e2]
              simp only [ExecResult.mk.injEq, true_and, and_true]
              omega
      · have hstep := attemptLoop_eq_fall a idx depth oracle t retries calls waits hmet habs
        refine ⟨1, le_refl 1, hret, by omega, Or.inr ?_⟩
        refine ⟨by simpa using hmet, ?_, fun _ => rfl, ?_⟩
        · intro hA
          have hn : ¬(retries - 1 > 0) := fun hgt => habs ⟨hA, hgt⟩
          omega
        · rw [hstep]
          by_cases hfb : a.fallback.isEmpty
          · simp [hfb]
          · simp [hfb]

/-- Unfolding of `_execute_action_with_fallback` when the fallback depth is
within bounds: it runs the retry loop with `_ABSOLUTE_ACTION_MAX_RETRIES`
retries for an absolute action and a single attempt otherwise. -/
theorem execWithFallback_eq (a : RAction) (idx : Int) (depth : Nat)
    (oracle : List Bool) (t : Nat) (h : ¬depth > MAX_FALLBACK_DEPTH) :
    execWithFallback a idx depth oracle t =
      attemptLoop a idx depth oracle t
        (if a.isAbsolute then ABSOLUTE_ACTION_MAX_RETRIES else 1) 0 0 := by
  rw [execWithFallback.eq_def]
  simp [h]

/-- Unfolding of `_execute_action_with_fallback` past the depth bound. -/
theorem execWithFallback_depth_eq (a : RAction) (idx : Int) (depth : Nat)
    (oracle : List Bool) (t : Nat) (h : depth > MAX_FALLBACK_DEPTH) :
    execWithFallback a idx depth oracle t = ⟨false, idx + 1, t, 0, 0⟩ := by
  rw [execWithFallback.eq_def]
  simp [h]

/-- Top-level characterisation of `_execute_action_with_fallback` (depth 0):
`k` direct `execute` invocations happen (`1 ≤ k`, bounded by the retry
budget), all but the last returning `false`, and the call returns through
the condition-met branch or the fallback/condition-not-met branch
according to the final invocation's result. -/
theorem execWithFallback_spec (a : RAction) (idx : Int) (oracle : List Bool) (t : Nat) :
    ∃ k, 1 ≤ k ∧ k ≤ (if a.isAbsolute then ABSOLUTE_ACTION_MAX_RETRIES else 1) ∧
      (∀ i, i + 1 < k → execResultAt oracle (t + i) = false) ∧
      ((execResultAt oracle (t + (k - 1)) = true ∧
        execWithFallback a idx 0 oracle t =
          ⟨true, jumpTarget a.nextMet (idx + 1), t + k, k, k - 1⟩)
       ∨
       (execResultAt oracle (t + (k - 1)) = false ∧
        (a.isAbsolute = true → k = ABSOLUTE_ACTION_MAX_RETRIES) ∧
        (a.isAbsolute = false → k = 1) ∧
        execWithFallback a idx 0 oracle t =
          ⟨(if a.fallback.isEmpty then false
            else (runFallbacks a.fallback idx 0 oracle (t + k)).success),
           jumpTarget a.nextNotMet (idx + 1),
           (if a.fallback.isEmpty then t + k
            else (runFallbacks a.fallback idx 0 oracle (t + k)).tEnd),
           k, k - 1⟩)) := by
  have hd : ¬(0 > MAX_FALLBACK_DEPTH) := by decide
  have hb : 1 ≤ (if a.isAbsolute then ABSOLUTE_ACTION_MAX_RETRIES else 1) := by
    by_cases h : a.isAbsolute <;> simp [h, ABSOLUTE_ACTION_MAX_RETRIES]
  obtain ⟨k, hk1, hk2, hprev, hfin⟩ :=
    attemptLoop_spec a idx 0 oracle (if a.isAbsolute then ABSOLUTE_ACTION_MAX_RETRIES else 1)
      hb t 0 0
  refine ⟨k, hk1, hk2, hprev, ?_⟩
  rw [execWithFallback_eq a idx 0 oracle t hd]
  cases hfin with
  | inl h =>
    left
    refine ⟨h.1, ?_⟩
    rw [h.2]
    simp
  | inr h =>
    right
    refine ⟨h.1, ?_, h.2.2.1, ?_⟩
    · intro hA
      have := h.2.1 hA
      simpa [hA] using this
    · rw [h.2.2.2]
      simp

/-- **C1**: After `_execute_action_with_fallback` executes an action (at the
top level of the interpreter loop, fallback depth 0), the next action index
returned is determined by the final condition-met result of the action's
own `execute` invocations: on `true` it is
`next_action_index_if_condition_met` when that field is a non-negative
integer and `current_action_index + 1` otherwise; on `false` it is
`next_action_index_if_condition_not_met` when that field is a non-negative
integer and `current_action_index + 1` otherwise (`jumpTarget` is exactly
this guard). -/
theorem jobexec_next_index_follows_condition_result
    (a : RAction) (idx : Int) (oracle : List Bool) (t : Nat) :
    (execWithFallback a idx 0 oracle t).next =
      if execResultAt oracle (t + ((execWithFallback a idx 0 oracle t).calls - 1)) = true
      then jumpTarget a.nextMet (idx + 1)
      else jumpTarget a.nextNotMet (idx + 1) := by
  obtain ⟨k, hk1, hk2, hprev, hfin⟩ := execWithFallback_spec a idx oracle t
  cases hfin with
  | inl h =>
    rw [h.2]
    simp only [h.1, if_true]
  | inr h =>
    rw [h.2.2.2]
    simp only [h.1, Bool.false_eq_true, if_false]

/-- **C2**: In `_execute_action_with_fallback`, an action with
`is_absolute = True` has `execute` invoked at most
`_ABSOLUTE_ACTION_MAX_RETRIES = 10` times, every invocation before the
last returns `false` (so the loop stops at the first `true`), the retries
use all ten invocations when even the last returns `false`, and exactly
one fixed `_ABSOLUTE_ACTION_RETRY_INTERVAL = 0.5`-second wait separates
consecutive invocations (`waits + 1 = calls`); a non-absolute action has
`execute` invoked exactly once, with no retry wait. -/
theorem jobexec_absolute_retry_discipline
    (a : RAction) (idx : Int) (oracle : List Bool) (t : Nat) :
    1 ≤ (execWithFallback a idx 0 oracle t).calls ∧
    (a.isAbsolute = true →
      (execWithFallback a idx 0 oracle t).calls ≤ ABSOLUTE_ACTION_MAX_RETRIES ∧
      (execWithFallback a idx 0 oracle t).waits + 1 = (execWithFallback a idx 0 oracle t).calls ∧
      (∀ i, i + 1 < (execWithFallback a idx 0 oracle t).calls →
        execResultAt oracle (t + i) = false) ∧
      (execResultAt oracle (t + ((execWithFallback a idx 0 oracle t).calls - 1)) = false →
        (execWithFallback a idx 0 oracle t).calls = ABSOLUTE_ACTION_MAX_RETRIES)) ∧
    (a.isAbsolute = false →
      (execWithFallback a idx 0 oracle t).calls = 1 ∧
      (execWithFallback a idx 0 oracle t).waits = 0) ∧
    ABSOLUTE_ACTION_MAX_RETRIES = 10 ∧ ABSOLUTE_ACTION_RETRY_INTERVAL = 1 / 2 := by
  obtain ⟨k, hk1, hk2, hprev, hfin⟩ := execWithFallback_spec a idx oracle t
  have hfields : (execWithFallback a idx 0 oracle t).calls = k ∧
      (execWithFallback a idx 0 oracle t).waits = k - 1 := by
    cases hfin with
    | inl h => rw [h.2]; exact ⟨rfl, rfl⟩
    | inr h => rw [h.2.2.2]; exact ⟨rfl, rfl⟩
  refine ⟨by omega, ?_, ?_, rfl, rfl⟩
  · intro hA
    simp only [hA, if_true] at hk2
    refine ⟨by omega, by omega, ?_, ?_⟩
    · intro i hi
      exact hprev i (by omega)
    · intro hlast
      rw [hfields.1] at hlast ⊢
      cases hfin with
      | inl h => rw [h.1] at hlast; cases hlast
      | inr h => exact h.2.1 hA
  · intro hA
    simp only [hA, Bool.false_eq_true, if_false] at hk2
    omega

/-- Witness for the absolute-retry theorem: an absolute action is retried
within the budget, a non-absolute one runs exactly once. -/
theorem jobexec_absolute_retry_discipline_witness :
    (execWithFallback (RAction.mk "click" none none none true []) 0 0 [false, false, true] 0).calls
        ≤ ABSOLUTE_ACTION_MAX_RETRIES ∧
    (execWithFallback (RAction.mk "click" none none none false []) 0 0 [false] 0).calls = 1 :=
  ⟨((jobexec_absolute_retry_discipline (RAction.mk "click" none none none true [])
      0 [false, false, true] 0).2.1 rfl).1,
   ((jobexec_absolute_retry_discipline (RAction.mk "click" none none none false [])
      0 [false] 0).2.2.1 rfl).1⟩

/-- The condition-met results obtained by running an entire fallback list in
order, unconditionally (no short-circuiting), threading the invocation
counter: reference sequence for the short-circuit behaviour of the real
fallback loop. -/
def fbResultsAll (l : List RAction) (idx : Int) (depth : Nat)
    (oracle : List Bool) (t : Nat) : List Bool :=
  match l with
  | [] => []
  | fb :: rest =>
    (execWithFallback fb idx (depth + 1) oracle t).met ::
      fbResultsAll rest idx depth oracle (execWithFallback fb idx (depth + 1) oracle t).tEnd

/-- The fallback loop executes fallbacks in list order and stops at the
first success: its success flag is the disjunction of the reference
results, and the number of fallbacks actually executed is the position of
the first success (or the whole list when none succeeds). -/
theorem runFallbacks_spec (l : List RAction) (idx : Int) (depth : Nat)
    (oracle : List Bool) (t : Nat) :
    (runFallbacks l idx depth oracle t).success = (fbResultsAll l idx depth oracle t).any id ∧
    (runFallbacks l idx depth oracle t).tried =
      (match (fbResultsAll l idx depth oracle t).findIdx? id with
       | some j => j + 1
       | none => l.length) := by
  induction l generalizing t with
  | nil =>
    rw [runFallbacks.eq_def]
    simp [fbResultsAll]
  | cons fb rest ih =>
    rw [runFallbacks.eq_def]
    by_cases hm : (execWithFallback fb idx (depth + 1) oracle t).met = true
    · simp [fbResultsAll, hm, List.findIdx?_cons]
    · simp only [Bool.not_eq_true] at hm
      obtain ⟨ih1, ih2⟩ := ih ((execWithFallback fb idx (depth + 1) oracle t).tEnd)
      simp only [fbResultsAll, hm, Bool.false_eq_true, if_false, List.any_cons, id,
        Bool.false_or, List.findIdx?_cons]
      refine ⟨ih1, ?_⟩
      rw [ih2]
      cases hfi : (fbResultsAll rest idx depth oracle
          ((execWithFallback fb idx (depth + 1) oracle t).tEnd)).findIdx? id with
      | none => simp [hfi]
      | some j => simp [hfi]

/-- **C3**: the fallback mechanism of `_execute_action_with_fallback`:
(1) any invocation at fallback depth greater than `_MAX_FALLBACK_DEPTH = 3`
executes no action (no `execute` invocation, counter unchanged) and is
treated as condition-not-met with sequential fall-through;
(2) the fallback loop runs the fallback actions in list order and stops at
the first one whose recursive execution reports success, leaving the
remaining fallbacks unexecuted (`tried` is the position of the first
success, or the whole list length when none succeeds);
(3) when the main action's final `execute` result is `false` and its
fallback list is non-empty, the returned condition-met flag is exactly
"some fallback succeeded". -/
theorem jobexec_fallback_order_and_depth :
    (∀ (a : RAction) (idx : Int) (depth : Nat) (oracle : List Bool) (t : Nat),
        depth > MAX_FALLBACK_DEPTH →
        execWithFallback a idx depth oracle t = ⟨false, idx + 1, t, 0, 0⟩) ∧
    (∀ (l : List RAction) (idx : Int) (depth : Nat) (oracle : List Bool) (t : Nat),
        (runFallbacks l idx depth oracle t).success =
          (fbResultsAll l idx depth oracle t).any id ∧
        (runFallbacks l idx depth oracle t).tried =
          (match (fbResultsAll l idx depth oracle t).findIdx? id with
           | some j => j + 1
           | none => l.length)) ∧
    (∀ (a : RAction) (idx : Int) (oracle : List Bool) (t : Nat),
        execResultAt oracle (t + ((execWithFallback a idx 0 oracle t).calls - 1)) = false →
        a.fallback ≠ [] →
        (execWithFallback a idx 0 oracle t).met =
          (fbResultsAll a.fallback idx 0 oracle
            (t + (execWithFallback a idx 0 oracle t).calls)).any id) := by
  refine ⟨?_, ?_, ?_⟩
  · intro a idx depth oracle t h
    exact execWithFallback_depth_eq a idx depth oracle t h
  · intro l idx depth oracle t
    exact runFallbacks_spec l idx depth oracle t
  · intro a idx oracle t hlast hne
    obtain ⟨k, hk1, hk2, hprev, hfin⟩ := execWithFallback_spec a idx oracle t
    have hempty : a.fallback.isEmpty = false := by
      cases hf : a.fallback with
      | nil => exact absurd hf hne
      | cons x xs => simp
    cases hfin with
    | inl h =>
      rw [h.2] at hlast
      simp only at hlast
      rw [h.1] at hlast
      cases hlast
    | inr h =>
      rw [h.2.2.2]
      simp only [hempty, Bool.false_eq_true, if_false]
      exact (runFallbacks_spec a.fallback idx 0 oracle (t + k)).1

/-- Concrete sample: a non-absolute action carrying one fallback action. -/
def sampleFallbackAction : RAction := RAction.mk "key_press" none none none false []

/-- Concrete sample: a non-absolute main action with a one-element fallback
sequence. -/
def sampleMainAction : RAction :=
  RAction.mk "click" none none none false [sampleFallbackAction]

/-- Witness for the fallback theorem: a depth-4 invocation executes nothing,
and for a concrete failing main action with a fallback the returned flag
matches the reference fallback run. -/
theorem jobexec_fallback_order_and_depth_witness :
    execWithFallback sampleFallbackAction 0 4 [true] 0 = ⟨false, 0 + 1, 0, 0, 0⟩ ∧
    (execWithFallback sampleMainAction 0 0 [false, false] 0).met =
      (fbResultsAll sampleMainAction.fallback 0 0 [false, false]
        (0 + (execWithFallback sampleMainAction 0 0 [false, false] 0).calls)).any id := by
  have hcalls : (execWithFallback sampleMainAction 0 0 [false, false] 0).calls = 1 := by
    obtain ⟨k, hk1, hk2, hprev, hfin⟩ := execWithFallback_spec sampleMainAction 0 [false, false] 0
    have hA : sampleMainAction.isAbsolute = false := rfl
    rw [hA] at hk2
    simp only [Bool.false_eq_true, if_false] at hk2
    have hk : k = 1 := by omega
    cases hfin with
    | inl h => rw [h.2, hk]
    | inr h => rw [h.2.2.2, hk]
  refine ⟨jobexec_fallback_order_and_depth.1 sampleFallbackAction 0 4 [true] 0 (by decide), ?_⟩
  refine jobexec_fallback_order_and_depth.2.2 sampleMainAction 0 [false, false] 0 ?_ ?_
  · rw [hcalls]
    decide
  · simp [sampleMainAction, RAction.fallback]

/-- Constant `MAX_HISTORY_LENGTH` of `JobExecutor._execute_loop`. -/
def MAX_HISTORY_LENGTH : Nat := 20

/-- Constant `MIN_REPETITIONS_FOR_LOOP_DETECTION` of
`JobExecutor._execute_loop`. -/
def MIN_REPETITIONS_FOR_LOOP_DETECTION : Nat := 3

/-- An action signature `(current_action_index, action.type, action.condition_id)`
as recorded in `execution_history`. -/
abbrev Sig := Int × String × Option String

/-- `current_action_signature` for the action at `idx`. -/
def actionSig (idx : Int) (a : RAction) : Sig := (idx, a.atype, a.condId)

/-- `execution_history.append(sig)` followed by
`if len(execution_history) > MAX_HISTORY_LENGTH: execution_history.pop(0)`. -/
def pushHistory (hist : List Sig) (sig : Sig) : List Sig :=
  if (hist ++ [sig]).length > MAX_HISTORY_LENGTH then (hist ++ [sig]).drop 1
  else hist ++ [sig]

/-- The runaway-loop check of `_execute_loop`:
`len(history) >= MIN_REPETITIONS_FOR_LOOP_DETECTION` and the last
`MIN_REPETITIONS_FOR_LOOP_DETECTION` recorded signatures all equal the
current signature. -/
def loopDetected (hist : List Sig) (sig : Sig) : Bool :=
  decide (MIN_REPETITIONS_FOR_LOOP_DETECTION ≤ hist.length) &&
    (hist.drop (hist.length - MIN_REPETITIONS_FOR_LOOP_DETECTION)).all
      (fun s => decide (s = sig))

/-- Length of the pushed history: capped at `MAX_HISTORY_LENGTH`. -/
theorem pushHistory_length (hist : List Sig) (sig : Sig) :
    (pushHistory hist sig).length =
      if hist.length + 1 > MAX_HISTORY_LENGTH then hist.length
      else hist.length + 1 := by
  rw [pushHistory]
  simp only [List.length_append, List.length_cons, List.length_nil, Nat.add_zero]
  split
  · simp only [List.length_drop, List.length_append, List.length_cons, List.length_nil]
    omega
  · simp

/-- The last three entries of the pushed history are the last two previous
entries followed by the new signature (when at least two exist). -/
theorem pushHistory_lastThree (hist : List Sig) (sig : Sig) (hn : 2 ≤ hist.length) :
    (pushHistory hist sig).drop ((pushHistory hist sig).length - 3) =
      hist.drop (hist.length - 2) ++ [sig] := by
  simp only [pushHistory]
  split
  · next hlen =>
    simp only [List.length_append, List.length_cons, List.length_nil, Nat.add_zero,
      MAX_HISTORY_LENGTH] at hlen
    rw [List.drop_drop]
    have he : 1 + ((List.drop 1 (hist ++ [sig])).length - 3) = (hist.length + 1) - 3 := by
      simp only [List.length_drop, List.length_append, List.length_cons, List.length_nil]
      omega
    rw [he]
    have he2 : hist.length + 1 - 3 = hist.length - 2 := by omega
    rw [he2]
    rw [List.drop_append_of_le_length (by omega)]
  · next hlen =>
    simp only [List.length_append, List.length_cons, List.length_nil, Nat.add_zero]
    have he2 : hist.length + 1 - 3 = hist.length - 2 := by omega
    rw [he2]
    rw [List.drop_append_of_le_length (by omega)]

/-- A length-two list followed by `sig` is all-`sig` exactly when it is
`[sig, sig]`. -/
theorem allEq_lastTwo (l : List Sig) (sig : Sig) (h : l.length = 2) :
    ((l ++ [sig]).all (fun s => decide (s = sig)) = true) ↔ l = [sig, sig] := by
  obtain ⟨x, y, rfl⟩ := List.length_eq_two.mp h
  simp

/-- The detection fires on the pushed history exactly when the two most
recently recorded signatures both equal the current one. -/
theorem loopDetected_push_iff (hist : List Sig) (sig : Sig) :
    loopDetected (pushHistory hist sig) sig = true ↔
      2 ≤ hist.length ∧ hist.drop (hist.length - 2) = [sig, sig] := by
  rw [loopDetected]
  simp only [MIN_REPETITIONS_FOR_LOOP_DETECTION]
  by_cases hn : 2 ≤ hist.length
  · rw [pushHistory_lastThree hist sig hn]
    have h3 : 3 ≤ (pushHistory hist sig).length := by
      rw [pushHistory_length]
      split
      · next hlen => simp only [MAX_HISTORY_LENGTH] at hlen; omega
      · omega
    have hlen2 : (hist.drop (hist.length - 2)).length = 2 := by
      rw [List.length_drop]
      omega
    rw [decide_eq_true h3]
    rw [Bool.true_and]
    rw [allEq_lastTwo (hist.drop (hist.length - 2)) sig hlen2]
    exact (and_iff_right hn).symm
  · have h3 : ¬(3 ≤ (pushHistory hist sig).length) := by
      rw [pushHistory_length]
      split
      · next hlen => simp only [MAX_HISTORY_LENGTH] at hlen; omega
      · omega
    simp [h3, hn]

/-- The inner `while 0 <= current_action_index < len(actions_list)` loop of
`JobExecutor._execute_loop` for one run cycle, with `fuel` bounding how many
iterations are modelled (the Python loop may run unboundedly): record the
current action's signature in the history, stop if the runaway-loop check
fires (action not executed), otherwise execute the action through
`_execute_action_with_fallback` and jump to the returned index
(the `next == -1` error path stops the job). Returns the signatures of the
actions actually executed, in order, and whether the job was stopped by the
loop (detection or error) rather than by leaving the index range. -/
def runCycleAux (actions : List RAction) (oracle : List Bool) :
    Nat → Int → List Sig → Nat → List Sig × Bool
  | 0, _, _, _ => ([], false)
  | fuel + 1, idx, hist, t =>
    if h : 0 ≤ idx ∧ idx.toNat < actions.length then
      if loopDetected
          (pushHistory hist (actionSig idx (actions.get ⟨idx.toNat, h.2⟩)))
          (actionSig idx (actions.get ⟨idx.toNat, h.2⟩)) then
        ([], true)
      else
        if (execWithFallback (actions.get ⟨idx.toNat, h.2⟩) idx 0 oracle t).next = -1 then
          ([actionSig idx (actions.get ⟨idx.toNat, h.2⟩)], true)
        else
          ((actionSig idx (actions.get ⟨idx.toNat, h.2⟩)) ::
            (runCycleAux actions oracle fuel
              (execWithFallback (actions.get ⟨idx.toNat, h.2⟩) idx 0 oracle t).next
              (pushHistory hist (actionSig idx (actions.get ⟨idx.toNat, h.2⟩)))
              (execWithFallback (actions.get ⟨idx.toNat, h.2⟩) idx 0 oracle t).tEnd).1,
           (runCycleAux actions oracle fuel
              (execWithFallback (actions.get ⟨idx.toNat, h.2⟩) idx 0 oracle t).next
              (pushHistory hist (actionSig idx (actions.get ⟨idx.toNat, h.2⟩)))
              (execWithFallback (actions.get ⟨idx.toNat, h.2⟩) idx 0 oracle t).tEnd).2)
    else ([], false)

/-- A full run cycle as started by `_execute_loop`: index 0, fresh history. -/
def runCycle (actions : List RAction) (oracle : List Bool) (fuel : Nat) (t : Nat) :
    List Sig × Bool :=
  runCycleAux actions oracle fuel 0 [] t

/-- `true` when the list contains three equal consecutive entries. -/
def hasTriple : List Sig → Bool
  | a :: b :: c :: rest => (decide (a = b) && decide (b = c)) || hasTriple (b :: c :: rest)
  | _ => false

theorem hasTriple_short (l : List Sig) (h : l.length ≤ 2) : hasTriple l = false := by
  match l with
  | [] => rfl
  | [a] => rfl
  | [a, b] => rfl
  | a :: b :: c :: rest => simp at h

theorem hasTriple_cons (x : Sig) (l : List Sig) (hl : hasTriple l = false)
    (hx : ∀ b c rest, l = b :: c :: rest → ¬(x = b ∧ b = c)) :
    hasTriple (x :: l) = false := by
  match l with
  | [] => rfl
  | [a] => rfl
  | b :: c :: rest =>
    rw [hasTriple]
    simp only [Bool.or_eq_false_iff, Bool.and_eq_false_iff]
    refine ⟨?_, hl⟩
    have := hx b c rest rfl
    by_cases hxb : x = b
    · right
      simp only [decide_eq_false_iff_not]
      intro hbc
      exact this ⟨hxb, hbc⟩
    · left
      simp only [decide_eq_false_iff_not]
      exact hxb

/-- The last two entries of the pushed history are the last previous entry
followed by the new signature. -/
theorem pushHistory_lastTwo (hist : List Sig) (sig : Sig) :
    (pushHistory hist sig).drop ((pushHistory hist sig).length - 2) =
      hist.drop (hist.length - 1) ++ [sig] := by
  simp only [pushHistory]
  split
  · next hlen =>
    simp only [List.length_append, List.length_cons, List.length_nil, Nat.add_zero,
      MAX_HISTORY_LENGTH] at hlen
    rw [List.drop_drop]
    have he : 1 + ((List.drop 1 (hist ++ [sig])).length - 2) = hist.length - 1 := by
      simp only [List.length_drop, List.length_append, List.length_cons, List.length_nil]
      omega
    rw [he]
    rw [List.drop_append_of_le_length (by omega)]
  · next hlen =>
    simp only [List.length_append, List.length_cons, List.length_nil, Nat.add_zero]
    have he : hist.length + 1 - 2 = hist.length - 1 := by omega
    rw [he]
    rw [List.drop_append_of_le_length (by omega)]

/-- If the last two recorded signatures are `[x, y]`, the last one is `[y]`. -/
theorem lastTwo_to_lastOne (hist : List Sig) (x y : Sig)
    (h : hist.drop (hist.length - 2) = [x, y]) :
    hist.drop (hist.length - 1) = [y] := by
  have hlen : (hist.drop (hist.length - 2)).length = 2 := by rw [h]; rfl
  rw [List.length_drop] at hlen
  have hn : 2 ≤ hist.length := by omega
  have hd : (hist.drop (hist.length - 2)).drop 1 = hist.drop (hist.length - 2 + 1) :=
    List.drop_drop 1 (hist.length - 2) hist
  rw [h] at hd
  have he : hist.length - 2 + 1 = hist.length - 1 := by omega
  rw [he] at hd
  exact hd.symm

/-- No action signature ever appears three times consecutively among the
executed signatures of a run cycle, for any starting index and history;
the history's last two entries are accounted as the two previously
executed signatures. -/
theorem runCycleAux_noTriple (actions : List RAction) (oracle : List Bool) :
    ∀ (fuel : Nat) (idx : Int) (hist : List Sig) (t : Nat),
      hasTriple (hist.drop (hist.length - 2) ++
        (runCycleAux actions oracle fuel idx hist t).1) = false := by
  intro fuel
  induction fuel with
  | zero =>
    intro idx hist t
    simp only [runCycleAux, List.append_nil]
    apply hasTriple_short
    rw [List.length_drop]
    omega
  | succ fuel ih =>
    intro idx hist t
    simp only [runCycleAux]
    by_cases h : 0 ≤ idx ∧ idx.toNat < actions.length
    · rw [dif_pos h]
      by_cases hdet : loopDetected
          (pushHistory hist (actionSig idx (actions.get ⟨idx.toNat, h.2⟩)))
          (actionSig idx (actions.get ⟨idx.toNat, h.2⟩)) = true
      · rw [if_pos hdet]
        apply hasTriple_short
        simp only [List.append_nil, List.length_drop]
        omega
      · rw [if_neg hdet]
        have hnotdet := fun hcon => hdet ((loopDetected_push_iff hist
            (actionSig idx (actions.get ⟨idx.toNat, h.2⟩))).mpr hcon)
        by_cases herr : (execWithFallback (actions.get ⟨idx.toNat, h.2⟩) idx 0 oracle t).next = -1
        · rw [if_pos herr]
          rcases hlt : hist.drop (hist.length - 2) with _ | ⟨x, tl⟩
          · apply hasTriple_short; simp
          · rcases htl : tl with _ | ⟨y, tl2⟩
            · apply hasTriple_short; simp
            · rcases htl2 : tl2 with _ | _
              · -- last two are [x, y]; appended [sig]: triple only if x = y = sig
                subst htl2; subst htl
                simp only [List.cons_append, List.singleton_append, List.nil_append]
                rw [hasTriple]
                simp only [Bool.or_eq_false_iff, Bool.and_eq_false_iff]
                constructor
                · by_cases hxy : x = y
                  · right
                    simp only [decide_eq_false_iff_not]
                    intro hys
                    have hn2 : 2 ≤ hist.length := by
                      have := congrArg List.length hlt
                      rw [List.length_drop] at this
                      simp at this
                      omega
                    exact hnotdet ⟨hn2, by rw [hlt, hxy, hys]⟩
                  · left
                    simp only [decide_eq_false_iff_not]
                    exact hxy
                · rfl
              · exfalso
                have := congrArg List.length hlt
                rw [List.length_drop] at this
                subst htl; subst htl2
                simp at this
                omega
        · rw [if_neg herr]
          have ihh := ih (execWithFallback (actions.get ⟨idx.toNat, h.2⟩) idx 0 oracle t).next
            (pushHistory hist (actionSig idx (actions.get ⟨idx.toNat, h.2⟩)))
            (execWithFallback (actions.get ⟨idx.toNat, h.2⟩) idx 0 oracle t).tEnd
          rw [pushHistory_lastTwo] at ihh
          rcases hlt : hist.drop (hist.length - 2) with _ | ⟨x, tl⟩
          · -- hist shorter than... empty last-two: hist = []
            have := congrArg List.length hlt
            rw [List.length_drop] at this
            simp only [List.length_nil] at this
            have hhist : hist = [] := by
              cases hh : hist with
              | nil => rfl
              | cons z zs => exfalso; rw [hh] at this; simp at this; omega
            subst hhist
            simp only [List.nil_append]
            simp only [List.drop_nil, List.nil_append] at ihh
            exact ihh
          · rcases htl : tl with _ | ⟨y, tl2⟩
            · -- last-two is [x]: hist = [x]
              subst htl
              have := congrArg List.length hlt
              rw [List.length_drop] at this
              simp only [List.length_cons, List.length_nil] at this
              have hn1 : hist.length = 1 := by omega
              have hdrop1 : hist.drop (hist.length - 1) = hist := by
                rw [hn1]; rfl
              have hdrop0 : hist.drop (hist.length - 2) = hist := by
                rw [hn1]; rfl
              rw [hdrop0] at hlt
              rw [hdrop1, hlt] at ihh
              rw [hlt]
              simp only [List.cons_append, List.singleton_append, List.nil_append] at ihh ⊢
              exact ihh
            · rcases htl2 : tl2 with _ | _
              · subst htl2; subst htl
                have hy := lastTwo_to_lastOne hist x y hlt
                rw [hy] at ihh
                simp only [List.cons_append, List.singleton_append, List.nil_append] at ihh ⊢
                rw [hasTriple]
                simp only [Bool.or_eq_false_iff, Bool.and_eq_false_iff]
                refine ⟨?_, ihh⟩
                by_cases hxy : x = y
                · right
                  simp only [decide_eq_false_iff_not]
                  intro hys
                  have hn2 : 2 ≤ hist.length := by
                    have := congrArg List.length hlt
                    rw [List.length_drop] at this
                    simp at this
                    omega
                  exact hnotdet ⟨hn2, by rw [hlt, hxy, hys]⟩
                · left
                  simp only [decide_eq_false_iff_not]
                  exact hxy
              · exfalso
                have := congrArg List.length hlt
                rw [List.length_drop] at this
                subst htl; subst htl2
                simp at this
                omega
    · rw [dif_neg h]
      simp only [List.append_nil]
      apply hasTriple_short
      rw [List.length_drop]
      omega

/-- **C4**: within a single run cycle of `_execute_loop`, no action signature
(index, type, condition id) is ever executed three times consecutively:
the executed-signature trace of a run cycle never contains three equal
consecutive entries, and whenever the signature of the action about to
execute equals the two most recently recorded signatures, the loop stops
with the job flagged stopped and without executing that action. -/
theorem jobexec_runaway_loop_detection :
    (∀ (actions : List RAction) (oracle : List Bool) (fuel t : Nat),
        hasTriple (runCycle actions oracle fuel t).1 = false) ∧
    (∀ (actions : List RAction) (oracle : List Bool) (fuel : Nat) (idx : Int)
        (hist : List Sig) (t : Nat) (h : 0 ≤ idx ∧ idx.toNat < actions.length),
        2 ≤ hist.length →
        hist.drop (hist.length - 2) =
          [actionSig idx (actions.get ⟨idx.toNat, h.2⟩),
           actionSig idx (actions.get ⟨idx.toNat, h.2⟩)] →
        runCycleAux actions oracle (fuel + 1) idx hist t = ([], true)) := by
  constructor
  · intro actions oracle fuel t
    have hmain := runCycleAux_noTriple actions oracle fuel 0 [] t
    simpa [runCycle] using hmain
  · intro actions oracle fuel idx hist t h hn hdrop
    have hdet : loopDetected
        (pushHistory hist (actionSig idx (actions.get ⟨idx.toNat, h.2⟩)))
        (actionSig idx (actions.get ⟨idx.toNat, h.2⟩)) = true :=
      (loopDetected_push_iff hist (actionSig idx (actions.get ⟨idx.toNat, h.2⟩))).mpr
        ⟨hn, hdrop⟩
    simp only [runCycleAux]
    rw [dif_pos h, if_pos hdet]

/-- Concrete sample action for the loop-detection witness. -/
def sampleLoopAction : RAction := RAction.mk "click" none none none false []

/-- Witness for the loop-detection theorem: with the two previous recorded
signatures equal to the current one, the cycle stops immediately. -/
theorem jobexec_runaway_loop_detection_witness :
    runCycleAux [sampleLoopAction] []
        1 0 [actionSig 0 sampleLoopAction, actionSig 0 sampleLoopAction] 0 = ([], true) :=
  jobexec_runaway_loop_detection.2 [sampleLoopAction] [] 0 0
    [actionSig 0 sampleLoopAction, actionSig 0 sampleLoopAction] 0
    ⟨by decide, by decide⟩ (by decide) (by decide)

/-- Outcome of one `condition_obj.check(**context)` call inside
`Trigger.check_conditions` (`core/trigger.py`): either a boolean result or
a raised exception. -/
inductive CheckOutcome where
  | ok (b : Bool)
  | raises
deriving DecidableEq, Repr

/-- Whether an outcome is a successful check returning `True`. -/
def isOkTrue : CheckOutcome → Bool
  | .ok true => true
  | _ => false

/-- The fields of a `Trigger` relevant to `check_conditions`: `enabled`,
`is_ai_trigger`, `condition_logic`, and `bool(self.actions)` (whether the
trigger has at least one `TriggerAction`). The conditions themselves are
represented by the list of their check outcomes. -/
structure PyTrigger where
  enabled : Bool
  is_ai_trigger : Bool
  condition_logic : String
  hasActions : Bool
deriving DecidableEq, Repr

/-- The `for condition_obj in self.conditions` loop of
`Trigger.check_conditions`, with the accumulated `results` list:
`OR` returns `True` at the first successful `True`; `AND` returns `False`
at the first `False` or exception; an exception appends `False` and, under
`OR`, continues; after the loop, `False` on an empty `results` list, else
`condition_logic == LOGIC_AND`. -/
def checkLoop (logic : String) : List CheckOutcome → List Bool → Bool
  | [], results => if results.isEmpty then false else decide (logic = "AND")
  | c :: rest, results =>
    match c with
    | .ok r =>
      if logic = "OR" ∧ r = true then true
      else if logic = "AND" ∧ r = false then false
      else checkLoop logic rest (results ++ [r])
    | .raises =>
      if logic = "AND" then false
      else checkLoop logic rest (results ++ [false])

/-- `Trigger.check_conditions` (`core/trigger.py`): disabled triggers and AI
triggers return `False`; an empty condition list returns `bool(self.actions)`;
otherwise the condition loop decides. -/
def check_conditions (tr : PyTrigger) (conds : List CheckOutcome) : Bool :=
  if tr.enabled = false then false
  else if tr.is_ai_trigger = true then false
  else if conds.isEmpty then tr.hasActions
  else checkLoop tr.condition_logic conds []

theorem checkLoop_nil (logic : String) (results : List Bool) :
    checkLoop logic [] results =
      if results.isEmpty then false else decide (logic = "AND") := rfl

theorem checkLoop_cons_ok (logic : String) (r : Bool) (rest : List CheckOutcome)
    (results : List Bool) :
    checkLoop logic (CheckOutcome.ok r :: rest) results =
      (if logic = "OR" ∧ r = true then true
       else if logic = "AND" ∧ r = false then false
       else checkLoop logic rest (results ++ [r])) := rfl

theorem checkLoop_cons_raises (logic : String) (rest : List CheckOutcome)
    (results : List Bool) :
    checkLoop logic (CheckOutcome.raises :: rest) results =
      (if logic = "AND" then false
       else checkLoop logic rest (results ++ [false])) := rfl

theorem checkLoop_AND (conds : List CheckOutcome) :
    ∀ results : List Bool, (conds ≠ [] ∨ results ≠ []) →
      checkLoop "AND" conds results = conds.all isOkTrue := by
  induction conds with
  | nil =>
    intro results h
    rcases h with h | h
    · exact absurd rfl h
    · rw [checkLoop_nil]
      simp [List.isEmpty_iff, h]
  | cons c rest ih =>
    intro results _
    match c with
    | .ok true =>
      rw [checkLoop_cons_ok]
      simp only [List.all_cons, isOkTrue, Bool.true_and]
      rw [if_neg (by simp), if_neg (by simp)]
      exact ih (results ++ [true]) (Or.inr (by simp))
    | .ok false =>
      rw [checkLoop_cons_ok]
      rw [if_neg (by simp), if_pos (by simp)]
      simp [isOkTrue]
    | .raises =>
      rw [checkLoop_cons_raises]
      rw [if_pos rfl]
      simp [isOkTrue]

theorem checkLoop_OR (conds : List CheckOutcome) :
    ∀ results : List Bool, (conds ≠ [] ∨ results ≠ []) →
      checkLoop "OR" conds results = conds.any isOkTrue := by
  induction conds with
  | nil =>
    intro results h
    rcases h with h | h
    · exact absurd rfl h
    · rw [checkLoop_nil]
      simp [List.isEmpty_iff, h]
  | cons c rest ih =>
    intro results _
    match c with
    | .ok true =>
      rw [checkLoop_cons_ok]
      rw [if_pos (by simp)]
      simp [isOkTrue]
    | .ok false =>
      rw [checkLoop_cons_ok]
      rw [if_neg (by simp), if_neg (by simp)]
      simp only [List.any_cons, isOkTrue, Bool.false_or]
      exact ih (results ++ [false]) (Or.inr (by simp))
    | .raises =>
      rw [checkLoop_cons_raises]
      rw [if_neg (by simp)]
      simp only [List.any_cons, isOkTrue, Bool.false_or]
      exact ih (results ++ [false]) (Or.inr (by simp))

/-- **C5**: for an enabled non-AI trigger, `check_conditions` on an empty
condition list returns whether the trigger has actions; on a non-empty
list under `AND` logic it returns `True` iff every condition's check
returns `True` (an exception counting as `False`), and under `OR` logic
iff at least one does. -/
theorem trigger_check_conditions_logic (tr : PyTrigger) (conds : List CheckOutcome)
    (hen : tr.enabled = true) (hai : tr.is_ai_trigger = false) :
    (conds = [] → check_conditions tr conds = tr.hasActions) ∧
    (conds ≠ [] → tr.condition_logic = "AND" →
        (check_conditions tr conds = true ↔ ∀ c ∈ conds, isOkTrue c = true)) ∧
    (conds ≠ [] → tr.condition_logic = "OR" →
        (check_conditions tr conds = true ↔ ∃ c ∈ conds, isOkTrue c = true)) := by
  refine ⟨?_, ?_, ?_⟩
  · intro hc
    rw [check_conditions, if_neg (by simp [hen]), if_neg (by simp [hai]),
      if_pos (by simp [hc])]
  · intro hc hlogic
    rw [check_conditions, if_neg (by simp [hen]), if_neg (by simp [hai]),
      if_neg (by simpa [List.isEmpty_iff] using hc), hlogic]
    rw [checkLoop_AND conds [] (Or.inl hc)]
    rw [List.all_eq_true]
  · intro hc hlogic
    rw [check_conditions, if_neg (by simp [hen]), if_neg (by simp [hai]),
      if_neg (by simpa [List.isEmpty_iff] using hc), hlogic]
    rw [checkLoop_OR conds [] (Or.inl hc)]
    rw [List.any_eq_true]

/-- Witness for the trigger-logic theorem: an enabled `OR` trigger with a
raising condition and a `True` condition fires; an enabled `AND` trigger
with the same conditions does not. -/
theorem trigger_check_conditions_logic_witness :
    check_conditions ⟨true, false, "OR", false⟩ [CheckOutcome.raises, CheckOutcome.ok true] = true ∧
    check_conditions ⟨true, false, "AND", false⟩ [CheckOutcome.raises, CheckOutcome.ok true] ≠ true := by
  constructor
  · exact ((trigger_check_conditions_logic ⟨true, false, "OR", false⟩
        [CheckOutcome.raises, CheckOutcome.ok true] rfl rfl).2.2
        (by decide) rfl).mpr ⟨CheckOutcome.ok true, by decide, by decide⟩
  · intro hcon
    have hall := ((trigger_check_conditions_logic ⟨true, false, "AND", false⟩
        [CheckOutcome.raises, CheckOutcome.ok true] rfl rfl).2.1
        (by decide) rfl).mp hcon
    have := hall CheckOutcome.raises (by decide)
    exact absurd this (by decide)

/-- The condition type strings registered in `_CONDITION_CLASSES`
(`core/condition.py`). -/
def registeredConditionTypes : List String :=
  ["none", "color_at_position", "image_on_screen", "text_on_screen",
   "window_exists", "process_exists", "text_in_relative_region",
   "region_color", "multi_image_on_screen"]

/-- A Python exception class relevant to `create_condition`'s handlers:
`ValueError` (caught by the first handler), `AttributeError` (raised by an
unguarded `name.strip()`), and any other `Exception`. -/
inductive PyExc where
  | valueError
  | attributeError
  | otherExc
deriving DecidableEq, Repr

/-- Oracle for what the selected condition subclass constructor does on the
given data (the constructors perform validation and may raise). -/
inductive CtorBehavior where
  | succeeds
  | raises (e : PyExc)
deriving DecidableEq, Repr

/-- The raw `"name"` value of a condition-data dictionary, as observed by
`NoneCondition.__init__`'s `name if name and name.strip() else "Always True"`
resolution: a string (possibly empty or blank; `.strip()` is safe), a falsy
non-string (`None` — which also models a missing key — `0`, `False`, ...;
`name and ...` short-circuits before `.strip()`), or a truthy non-string
(`5`, a list, ...) on which the unguarded `name.strip()` raises
`AttributeError` (`core/condition.py` line 209). -/
inductive PyNameVal where
  | strVal (s : String)
  | nonStrFalsy
  | nonStrTruthy
deriving DecidableEq, Repr

/-- The fields of a condition-data dictionary that `create_condition` reads:
the `"type"` value (`none` models a missing key or a non-string value), the
`"id"` value, the raw `"name"` value, and the behaviour of the dispatched
constructor. -/
structure CondDict where
  typeField : Option String
  idField : Option String
  ctorBehavior : CtorBehavior
  nameField : PyNameVal
deriving DecidableEq, Repr

/-- An input value passed to `create_condition`: a dictionary or not. -/
inductive CondData where
  | notDict
  | dict (d : CondDict)
deriving DecidableEq, Repr

/-- A constructed `Condition` object, abstracted to the fields the
`ConditionManager` claims concern: its `id` and its `type`. -/
structure PyCond where
  id : String
  ctype : String
deriving DecidableEq, Repr

/-- `Condition.__init__` id resolution: keep a non-empty given id, otherwise
generate a fresh `uuid4().hex` (modelled as an opaque non-empty string). -/
def resolveId : Option String → String
  | some s => if s = "" then "generated-uuid-hex" else s
  | none => "generated-uuid-hex"

theorem resolveId_ne_empty (o : Option String) : resolveId o ≠ "" := by
  match o with
  | none => simp [resolveId]
  | some s =>
    rw [resolveId]
    split
    · simp
    · next h => exact h

/-- Dispatching `condition_class(params=..., id=..., name=..., ...)` inside
the registered-type `try`: on success the object carries the class's type;
otherwise the modelled exception is raised (the oracle covers any raise,
including `NoneCondition.__init__`'s `name.strip()` on a truthy non-string
name when the registered type is `"none"` — on this path the raise is
caught by the handlers below). -/
def runConditionCtor (ctype : String) (beh : CtorBehavior)
    (idField : Option String) : Except PyExc PyCond :=
  match beh with
  | .succeeds => .ok ⟨resolveId idField, ctype⟩
  | .raises e => .error e

/-- `NoneCondition.__init__` as invoked by `create_condition`'s fallback
paths: it evaluates `name if name and name.strip() else "Always True"`
BEFORE the guarded base-class `__init__`, so a truthy non-string name
raises `AttributeError`; in every other case construction completes (the
base init's own name and id handling is isinstance-guarded and the region
validation records errors instead of raising). -/
def mkNoneCondition (idField : Option String) (nameField : PyNameVal) :
    Except PyExc PyCond :=
  match nameField with
  | .nonStrTruthy => .error PyExc.attributeError
  | _ => .ok ⟨resolveId idField, "none"⟩

theorem mkNoneCondition_str (idField : Option String) (s : String) :
    mkNoneCondition idField (PyNameVal.strVal s) =
      Except.ok ⟨resolveId idField, "none"⟩ := rfl

theorem mkNoneCondition_falsy (idField : Option String) :
    mkNoneCondition idField PyNameVal.nonStrFalsy =
      Except.ok ⟨resolveId idField, "none"⟩ := rfl

/-- `create_condition` (`core/condition.py`): non-dict data yields
`NoneCondition({})` (no name passed); a missing, non-string or empty
`type` yields the `NoneCondition` fallback built with the RAW `name`
value (line 1362 — outside any `try`, so the fallback itself can raise);
an unregistered type and the `except ValueError` / `except Exception`
handlers build their fallbacks with f-string names (always safe strings);
a registered type with a succeeding constructor yields that subtype. The
`Except` layer records any exception that escapes. -/
def create_condition (data : CondData) : Except PyExc PyCond :=
  match data with
  | .notDict => mkNoneCondition none PyNameVal.nonStrFalsy
  | .dict d =>
    match d.typeField with
    | none => mkNoneCondition d.idField d.nameField
    | some ctype =>
      if ctype = "" then mkNoneCondition d.idField d.nameField
      else if registeredConditionTypes.contains ctype then
        match runConditionCtor ctype d.ctorBehavior d.idField with
        | .ok c => .ok c
        | .error PyExc.valueError =>
          mkNoneCondition d.idField (PyNameVal.strVal "Errored_INVALID")
        | .error _ =>
          mkNoneCondition d.idField (PyNameVal.strVal "Errored_UNEXPECTED_ERROR")
      else mkNoneCondition d.idField (PyNameVal.strVal "UnknownType")

/-- The `not isinstance(condition_type, str) or not condition_type` guard:
exactly the inputs on which `create_condition` passes the raw name value
to the unguarded `NoneCondition` fallback. -/
def typeFieldInvalid (d : CondDict) : Prop :=
  d.typeField = none ∨ d.typeField = some ""

/-- Counterexample to **C10** as stated: on the dict `{"name": 5}` — no
`"type"` key and a truthy non-string name — `create_condition` does not
return a condition: the `NoneCondition` fallback's unguarded
`name.strip()` raises `AttributeError`, which propagates because this
path lies outside the `try/except` that guards only the registered-type
dispatch. -/
theorem create_condition_raises_on_nonstring_name :
    create_condition
        (CondData.dict ⟨none, none, CtorBehavior.succeeds, PyNameVal.nonStrTruthy⟩) =
      Except.error PyExc.attributeError ∧
    ∀ c : PyCond,
      create_condition
          (CondData.dict ⟨none, none, CtorBehavior.succeeds, PyNameVal.nonStrTruthy⟩) ≠
        Except.ok c := by
  refine ⟨rfl, ?_⟩
  intro c hc
  have h1 : create_condition
      (CondData.dict ⟨none, none, CtorBehavior.succeeds, PyNameVal.nonStrTruthy⟩) =
      Except.error PyExc.attributeError := rfl
  rw [h1] at hc
  exact Except.noConfusion hc

/-- **C10 (amended)**: `create_condition` returns a condition without
raising for every input except a dict whose `"type"` is missing,
non-string or empty and whose `"name"` value is a truthy non-string; on
that path the raw name reaches the `NoneCondition` fallback's unguarded
`name.strip()` and the `AttributeError` propagates. In every other error
case — non-dict input, missing/empty type with a safe name, an
unregistered type, or a registered constructor that raises (the latter
two building their fallbacks with f-string names) — a `NoneCondition`
fallback is returned instead of propagating the error. -/
theorem create_condition_total_amended :
    (∃ c, create_condition CondData.notDict = Except.ok c ∧ c.ctype = "none") ∧
    (∀ d : CondDict, ¬(typeFieldInvalid d ∧ d.nameField = PyNameVal.nonStrTruthy) →
        ∃ c, create_condition (CondData.dict d) = Except.ok c) ∧
    (∀ d : CondDict, typeFieldInvalid d → d.nameField = PyNameVal.nonStrTruthy →
        create_condition (CondData.dict d) = Except.error PyExc.attributeError) ∧
    (∀ d : CondDict, typeFieldInvalid d → d.nameField ≠ PyNameVal.nonStrTruthy →
        ∃ c, create_condition (CondData.dict d) = Except.ok c ∧ c.ctype = "none") ∧
    (∀ (d : CondDict) (s : String), d.typeField = some s → s ≠ "" →
        registeredConditionTypes.contains s = false →
        ∃ c, create_condition (CondData.dict d) = Except.ok c ∧ c.ctype = "none") ∧
    (∀ (d : CondDict) (s : String) (e : PyExc), d.typeField = some s → s ≠ "" →
        registeredConditionTypes.contains s = true →
        d.ctorBehavior = CtorBehavior.raises e →
        ∃ c, create_condition (CondData.dict d) = Except.ok c ∧ c.ctype = "none") := by
  have hsafe : ∀ (idf : Option String) (nv : PyNameVal), nv ≠ PyNameVal.nonStrTruthy →
      mkNoneCondition idf nv = Except.ok ⟨resolveId idf, "none"⟩ := by
    intro idf nv hnv
    cases nv with
    | strVal s => exact mkNoneCondition_str idf s
    | nonStrFalsy => exact mkNoneCondition_falsy idf
    | nonStrTruthy => exact absurd rfl hnv
  refine ⟨⟨⟨resolveId none, "none"⟩, rfl, rfl⟩, ?_, ?_, ?_, ?_, ?_⟩
  · intro d hd
    cases htf : d.typeField with
    | none =>
      have hname : d.nameField ≠ PyNameVal.nonStrTruthy :=
        fun hn => hd ⟨Or.inl htf, hn⟩
      exact ⟨⟨resolveId d.idField, "none"⟩,
        by simp only [create_condition, htf]; exact hsafe d.idField d.nameField hname⟩
    | some ctype =>
      by_cases hempty : ctype = ""
      · have hname : d.nameField ≠ PyNameVal.nonStrTruthy :=
          fun hn => hd ⟨Or.inr (by rw [htf, hempty]), hn⟩
        exact ⟨⟨resolveId d.idField, "none"⟩,
          by simp only [create_condition, htf, hempty, if_pos rfl]
             exact hsafe d.idField d.nameField hname⟩
      · by_cases hreg : ctype ∈ registeredConditionTypes
        · cases hb : d.ctorBehavior with
          | succeeds =>
            exact ⟨⟨resolveId d.idField, ctype⟩,
              by simp [create_condition, htf, hempty, hreg, hb, runConditionCtor]⟩
          | raises e =>
            cases e with
            | valueError =>
              exact ⟨⟨resolveId d.idField, "none"⟩,
                by simp [create_condition, htf, hempty, hreg, hb, runConditionCtor,
                  mkNoneCondition]⟩
            | attributeError =>
              exact ⟨⟨resolveId d.idField, "none"⟩,
                by simp [create_condition, htf, hempty, hreg, hb, runConditionCtor,
                  mkNoneCondition]⟩
            | otherExc =>
              exact ⟨⟨resolveId d.idField, "none"⟩,
                by simp [create_condition, htf, hempty, hreg, hb, runConditionCtor,
                  mkNoneCondition]⟩
        · exact ⟨⟨resolveId d.idField, "none"⟩,
            by simp [create_condition, htf, hempty, hreg, mkNoneCondition]⟩
  · intro d hinv hname
    rcases hinv with htf | htf
    · simp only [create_condition, htf, hname]
      rfl
    · simp only [create_condition, htf, if_pos rfl, hname]
      rfl
  · intro d hinv hname
    rcases hinv with htf | htf
    · exact ⟨⟨resolveId d.idField, "none"⟩,
        by simp only [create_condition, htf]; exact hsafe d.idField d.nameField hname, rfl⟩
    · exact ⟨⟨resolveId d.idField, "none"⟩,
        by simp only [create_condition, htf, if_pos rfl]
           exact hsafe d.idField d.nameField hname, rfl⟩
  · intro d str htf hempty hreg
    have hreg2 : str ∉ registeredConditionTypes := by simpa using hreg
    exact ⟨⟨resolveId d.idField, "none"⟩,
      by simp [create_condition, htf, hempty, hreg2, mkNoneCondition], rfl⟩
  · intro d str e htf hempty hreg hb
    have hreg2 : str ∈ registeredConditionTypes := by simpa using hreg
    cases e with
    | valueError =>
      exact ⟨⟨resolveId d.idField, "none"⟩,
        by simp [create_condition, htf, hempty, hreg2, hb, runConditionCtor,
          mkNoneCondition], rfl⟩
    | attributeError =>
      exact ⟨⟨resolveId d.idField, "none"⟩,
        by simp [create_condition, htf, hempty, hreg2, hb, runConditionCtor,
          mkNoneCondition], rfl⟩
    | otherExc =>
      exact ⟨⟨resolveId d.idField, "none"⟩,
        by simp [create_condition, htf, hempty, hreg2, hb, runConditionCtor,
          mkNoneCondition], rfl⟩

/-- Witness for the amended totality theorem: the poisonous name raises
only on the unguarded fallback path — a registered type whose constructor
raises still returns a `NoneCondition` fallback even with that name
(f-string fallback), while the missing-type path propagates the
`AttributeError`. -/
theorem create_condition_total_amended_witness :
    create_condition
        (CondData.dict ⟨none, some "cond-0", CtorBehavior.succeeds, PyNameVal.nonStrTruthy⟩) =
      Except.error PyExc.attributeError ∧
    (∃ c, create_condition
        (CondData.dict ⟨some "image_on_screen", some "cond-1",
          CtorBehavior.raises PyExc.valueError, PyNameVal.nonStrTruthy⟩) =
      Except.ok c ∧ c.ctype = "none") :=
  ⟨create_condition_total_amended.2.2.1
      ⟨none, some "cond-0", CtorBehavior.succeeds, PyNameVal.nonStrTruthy⟩
      (Or.inl rfl) rfl,
   create_condition_total_amended.2.2.2.2.2
      ⟨some "image_on_screen", some "cond-1",
        CtorBehavior.raises PyExc.valueError, PyNameVal.nonStrTruthy⟩
      "image_on_screen" PyExc.valueError rfl (by decide) (by decide) rfl⟩

/-- The `self.shared_conditions` dict, as an insertion-ordered association
list keyed by condition id. -/
abbrev Registry := List (String × PyCond)

/-- Python dict assignment `m[k] = v`: overwrite in place if the key exists,
append otherwise. -/
def dictInsert (m : Registry) (k : String) (v : PyCond) : Registry :=
  if m.any (fun p => decide (p.1 = k)) then
    m.map (fun p => if p.1 = k then (k, v) else p)
  else m ++ [(k, v)]

/-- One iteration of the `for cond_data in conditions_data_list` loop of
`ConditionManager.load_shared_conditions`: skip non-dicts, skip raw
`"type" == "none"` entries, build the condition and insert it only when it
has a truthy id and is not a `NoneCondition`. -/
def loadStep (m : Registry) (item : CondData) : Registry :=
  match item with
  | .notDict => m
  | .dict d =>
    if d.typeField = some "none" then m
    else
      match create_condition item with
      | .ok c => if c.id ≠ "" ∧ c.ctype ≠ "none" then dictInsert m c.id c else m
      | .error _ => m

/-- `ConditionManager.load_shared_conditions` (`core/condition_manager.py`):
clear the registry, then run the loading loop over the data list. -/
def load_shared_conditions (items : List CondData) : Registry :=
  items.foldl loadStep []

theorem loadStep_notDict (m : Registry) : loadStep m CondData.notDict = m := rfl

theorem loadStep_dict (m : Registry) (d : CondDict) :
    loadStep m (CondData.dict d) =
      (if d.typeField = some "none" then m
       else
         match create_condition (CondData.dict d) with
         | .ok c => if c.id ≠ "" ∧ c.ctype ≠ "none" then dictInsert m c.id c else m
         | .error _ => m) := rfl

/-- `ConditionManager.add_or_update_shared_condition`: reject a condition
without id and any `NoneCondition`; otherwise insert/overwrite by id. -/
def add_or_update_shared_condition (m : Registry) (c : PyCond) : Registry × Bool :=
  if c.id = "" then (m, false)
  else if c.ctype = "none" then (m, false)
  else (dictInsert m c.id c, true)

/-- The name-preservation step of `update_shared_condition_from_data`:
`str(updated_condition_data.get("name", "")).strip()` is total (`str()`
never raises), and a missing or blank-string name is replaced by the
stored original name (always a string; the registry model does not track
name contents, so the original is an opaque string). A non-string value
is kept raw (`str(5)` is truthy), so it can still make the rebuild raise
— which the surrounding `except Exception` turns into `False`. -/
def preserveName : PyNameVal → PyNameVal
  | .strVal s => if s.trim = "" then .strVal "original-name" else .strVal s
  | v => v

/-- `ConditionManager.update_shared_condition_from_data`: reject empty ids,
non-dict data, unknown ids and `"type" == "none"` data; otherwise rebuild
the condition from the data (with the id forced to the target id) and
replace the entry unless the rebuilt condition is a `NoneCondition`. -/
def update_shared_condition_from_data (m : Registry) (cid : String)
    (d : CondData) : Registry × Bool :=
  match d with
  | .notDict => (m, false)
  | .dict f =>
    if cid = "" then (m, false)
    else if m.any (fun p => decide (p.1 = cid)) = false then (m, false)
    else if f.typeField = some "none" then (m, false)
    else
      match create_condition (CondData.dict ⟨f.typeField, some cid, f.ctorBehavior, preserveName f.nameField⟩) with
      | .ok c => if c.ctype = "none" then (m, false) else (dictInsert m cid c, true)
      | .error _ => (m, false)

theorem update_from_data_notDict (m : Registry) (cid : String) :
    update_shared_condition_from_data m cid CondData.notDict = (m, false) := rfl

theorem update_from_data_dict (m : Registry) (cid : String) (f : CondDict) :
    update_shared_condition_from_data m cid (CondData.dict f) =
      (if cid = "" then (m, false)
       else if m.any (fun p => decide (p.1 = cid)) = false then (m, false)
       else if f.typeField = some "none" then (m, false)
       else
         match create_condition (CondData.dict ⟨f.typeField, some cid, f.ctorBehavior, preserveName f.nameField⟩) with
         | .ok c => if c.ctype = "none" then (m, false) else (dictInsert m cid c, true)
         | .error _ => (m, false)) := rfl

/-- `ConditionManager.get_serializable_data`: serialise every stored
condition whose type is not `"none"`. -/
def get_serializable_data (m : Registry) : List PyCond :=
  (m.filter (fun p => decide (p.2.ctype ≠ "none"))).map (fun p => p.2)

/-- The shared-registry invariant: no stored condition is a `NoneCondition`. -/
def RegistryInv (m : Registry) : Prop := ∀ p ∈ m, p.2.ctype ≠ "none"

theorem dictInsert_inv (m : Registry) (k : String) (v : PyCond)
    (hm : RegistryInv m) (hv : v.ctype ≠ "none") : RegistryInv (dictInsert m k v) := by
  rw [dictInsert]
  split
  · intro p hp
    rw [List.mem_map] at hp
    obtain ⟨q, hq, hpq⟩ := hp
    by_cases hk : q.1 = k
    · rw [if_pos hk] at hpq
      rw [← hpq]
      exact hv
    · rw [if_neg hk] at hpq
      rw [← hpq]
      exact hm q hq
  · intro p hp
    rw [List.mem_append] at hp
    rcases hp with hp | hp
    · exact hm p hp
    · rw [List.mem_singleton] at hp
      rw [hp]
      exact hv

theorem loadStep_inv (m : Registry) (item : CondData) (hm : RegistryInv m) :
    RegistryInv (loadStep m item) := by
  match item with
  | .notDict => rw [loadStep_notDict]; exact hm
  | .dict d =>
    rw [loadStep_dict]
    by_cases ht : d.typeField = some "none"
    · rw [if_pos ht]; exact hm
    · rw [if_neg ht]
      match create_condition (CondData.dict d) with
      | .ok c =>
        show RegistryInv (if c.id ≠ "" ∧ c.ctype ≠ "none" then dictInsert m c.id c else m)
        by_cases hc : c.id ≠ "" ∧ c.ctype ≠ "none"
        · rw [if_pos hc]
          exact dictInsert_inv m c.id c hm hc.2
        · rw [if_neg hc]
          exact hm
      | .error _ => exact hm

/-- **C6**: every `ConditionManager` operation preserves the invariant that
no `NoneCondition` is present in the shared registry: loading builds an
invariant-satisfying registry from any data; `add_or_update` preserves the
invariant and rejects a `NoneCondition` without touching the registry;
`update_from_data` preserves the invariant and rejects `"type" == "none"`
data without touching the registry; serialisation never emits a
`NoneCondition`. -/
theorem condition_manager_none_free :
    (∀ items : List CondData, RegistryInv (load_shared_conditions items)) ∧
    (∀ (m : Registry) (c : PyCond), RegistryInv m →
        RegistryInv (add_or_update_shared_condition m c).1) ∧
    (∀ (m : Registry) (c : PyCond), c.ctype = "none" →
        add_or_update_shared_condition m c = (m, false)) ∧
    (∀ (m : Registry) (cid : String) (d : CondData), RegistryInv m →
        RegistryInv (update_shared_condition_from_data m cid d).1) ∧
    (∀ (m : Registry) (cid : String) (f : CondDict), f.typeField = some "none" →
        update_shared_condition_from_data m cid (CondData.dict f) = (m, false)) ∧
    (∀ (m : Registry), ∀ c ∈ get_serializable_data m, c.ctype ≠ "none") := by
  refine ⟨?_, ?_, ?_, ?_, ?_, ?_⟩
  · intro items
    rw [load_shared_conditions]
    have hgen : ∀ (l : List CondData) (m : Registry), RegistryInv m →
        RegistryInv (l.foldl loadStep m) := by
      intro l
      induction l with
      | nil => intro m hm; exact hm
      | cons x xs ih =>
        intro m hm
        rw [List.foldl_cons]
        exact ih _ (loadStep_inv m x hm)
    exact hgen items [] (fun p hp => absurd hp (List.not_mem_nil p))
  · intro m c hm
    rw [add_or_update_shared_condition]
    by_cases h1 : c.id = ""
    · rw [if_pos h1]; exact hm
    · rw [if_neg h1]
      by_cases h2 : c.ctype = "none"
      · rw [if_pos h2]; exact hm
      · rw [if_neg h2]
        exact dictInsert_inv m c.id c hm h2
  · intro m c hc
    rw [add_or_update_shared_condition]
    by_cases h1 : c.id = ""
    · rw [if_pos h1]
    · rw [if_neg h1, if_pos hc]
  · intro m cid d hm
    match d with
    | .notDict => rw [update_from_data_notDict]; exact hm
    | .dict f =>
      rw [update_from_data_dict]
      by_cases h1 : cid = ""
      · rw [if_pos h1]; exact hm
      · rw [if_neg h1]
        by_cases h2 : m.any (fun p => decide (p.1 = cid)) = false
        · rw [if_pos h2]; exact hm
        · rw [if_neg h2]
          by_cases h3 : f.typeField = some "none"
          · rw [if_pos h3]; exact hm
          · rw [if_neg h3]
            match create_condition (CondData.dict ⟨f.typeField, some cid, f.ctorBehavior, preserveName f.nameField⟩) with
            | .ok c =>
              show RegistryInv ((if c.ctype = "none" then (m, false)
                else (dictInsert m cid c, true)).1)
              by_cases h4 : c.ctype = "none"
              · rw [if_pos h4]; exact hm
              · rw [if_neg h4]
                exact dictInsert_inv m cid c hm h4
            | .error _ => exact hm
  · intro m cid f hf
    rw [update_from_data_dict]
    by_cases h1 : cid = ""
    · rw [if_pos h1]
    · rw [if_neg h1]
      by_cases h2 : m.any (fun p => decide (p.1 = cid)) = false
      · rw [if_pos h2]
      · rw [if_neg h2, if_pos hf]
  · intro m c hc
    rw [get_serializable_data] at hc
    rw [List.mem_map] at hc
    obtain ⟨p, hp, hpc⟩ := hc
    rw [List.mem_filter] at hp
    have := hp.2
    rw [decide_eq_true_iff] at this
    rw [← hpc]
    exact this

/-- Witness for the registry invariant theorem: adding a `NoneCondition` is
rejected without modifying the registry, and loading a list containing a
`"none"` entry yields a registry satisfying the invariant. -/
theorem condition_manager_none_free_witness :
    add_or_update_shared_condition [] ⟨"cond-1", "none"⟩ = ([], false) ∧
    RegistryInv (load_shared_conditions
      [CondData.dict ⟨some "none", some "cond-2", CtorBehavior.succeeds, PyNameVal.strVal "shared red"⟩]) :=
  ⟨condition_manager_none_free.2.2.1 [] ⟨"cond-1", "none"⟩ rfl,
   condition_manager_none_free.1
     [CondData.dict ⟨some "none", some "cond-2", CtorBehavior.succeeds, PyNameVal.strVal "shared red"⟩]⟩

/-- A validated entry of `RegionColorCondition.target_colors_list`
(`core/condition.py`): the colour's hex key and its individual percentage
threshold (`__init__` always stores a `"threshold"` for every target,
clamped to `[0, 100]`). Percentages and thresholds are Python floats,
modelled as `ℚ`. -/
structure ColorTarget where
  hex : String
  threshold : ℚ
deriving DecidableEq, Repr

/-- The fields of a `RegionColorCondition` used by the aggregation logic of
`check`: the condition logic string, the target colours and the overall
`match_percentage_threshold`. -/
structure RegionColorParams where
  condition_logic : String
  target_colors : List ColorTarget
  match_percentage_threshold : ℚ
deriving DecidableEq, Repr

/-- The `condition_logic` normalisation of `RegionColorCondition.__init__`:
anything outside the three valid values falls back to
`ANY_TARGET_MET_THRESHOLD`. -/
def normalizeRegionColorLogic (raw : String) : String :=
  if raw = "ANY_TARGET_MET_THRESHOLD" ∨ raw = "ALL_TARGETS_MET_THRESHOLD" ∨
      raw = "TOTAL_PERCENTAGE_ABOVE_THRESHOLD" then raw
  else "ANY_TARGET_MET_THRESHOLD"

/-- The aggregation logic of `RegionColorCondition.check`, given the
per-target-colour match percentages `pct` computed by
`analyze_region_colors` for the captured region
(`color_percentages.get(hex, 0.0)` is modelled by `pct` being total):
`ANY` succeeds when some target's percentage reaches its individual
threshold, `ALL` when all do, `TOTAL` when the summed percentages reach
`match_percentage_threshold`. The screen capture and OpenCV analysis that
produce `pct` are external and abstracted. -/
def regionColorCheck (c : RegionColorParams) (pct : String → ℚ) : Bool :=
  if c.condition_logic = "ANY_TARGET_MET_THRESHOLD" then
    if c.target_colors.isEmpty then false
    else c.target_colors.any (fun t => decide (t.threshold ≤ pct t.hex))
  else if c.condition_logic = "ALL_TARGETS_MET_THRESHOLD" then
    if c.target_colors.isEmpty then true
    else c.target_colors.all (fun t => decide (t.threshold ≤ pct t.hex))
  else if c.condition_logic = "TOTAL_PERCENTAGE_ABOVE_THRESHOLD" then
    if c.target_colors.isEmpty then
      decide (c.match_percentage_threshold ≤ 0)
    else
      decide (c.match_percentage_threshold ≤ (c.target_colors.map (fun t => pct t.hex)).sum)
  else false

/-- **C7**: `RegionColorCondition.check`, given the per-target match
percentages: under `ANY_TARGET_MET_THRESHOLD` it returns `True` iff some
target's percentage is at least that target's individual threshold; under
`ALL_TARGETS_MET_THRESHOLD` iff every target's percentage is; under
`TOTAL_PERCENTAGE_ABOVE_THRESHOLD` iff the sum of the targets' percentages
is at least `match_percentage_threshold`. -/
theorem region_color_check_logic (c : RegionColorParams) (pct : String → ℚ) :
    (c.condition_logic = "ANY_TARGET_MET_THRESHOLD" →
      (regionColorCheck c pct = true ↔
        ∃ t ∈ c.target_colors, t.threshold ≤ pct t.hex)) ∧
    (c.condition_logic = "ALL_TARGETS_MET_THRESHOLD" →
      (regionColorCheck c pct = true ↔
        ∀ t ∈ c.target_colors, t.threshold ≤ pct t.hex)) ∧
    (c.condition_logic = "TOTAL_PERCENTAGE_ABOVE_THRESHOLD" →
      (regionColorCheck c pct = true ↔
        c.match_percentage_threshold ≤ (c.target_colors.map (fun t => pct t.hex)).sum)) := by
  refine ⟨?_, ?_, ?_⟩
  · intro hl
    rw [regionColorCheck, if_pos hl]
    by_cases ht : c.target_colors.isEmpty
    · rw [if_pos ht]
      rw [List.isEmpty_iff] at ht
      simp [ht]
    · rw [if_neg ht]
      simp [List.any_eq_true]
  · intro hl
    rw [regionColorCheck, if_neg (by rw [hl]; decide), if_pos hl]
    by_cases ht : c.target_colors.isEmpty
    · rw [if_pos ht]
      rw [List.isEmpty_iff] at ht
      simp [ht]
    · rw [if_neg ht]
      simp [List.all_eq_true]
  · intro hl
    rw [regionColorCheck, if_neg (by rw [hl]; decide), if_neg (by rw [hl]; decide),
      if_pos hl]
    by_cases ht : c.target_colors.isEmpty
    · rw [if_pos ht]
      rw [List.isEmpty_iff] at ht
      simp [ht]
    · rw [if_neg ht]
      rw [decide_eq_true_iff]

/-- Witness for the region-colour logic theorem: a single red target at 60%
meets its 50% threshold under `ANY` logic, and the total 60% misses a 75%
overall threshold under `TOTAL` logic. -/
theorem region_color_check_logic_witness :
    regionColorCheck ⟨"ANY_TARGET_MET_THRESHOLD", [⟨"#ff0000", 50⟩], 75⟩
      (fun _ => 60) = true ∧
    regionColorCheck ⟨"TOTAL_PERCENTAGE_ABOVE_THRESHOLD", [⟨"#ff0000", 50⟩], 75⟩
      (fun _ => 60) ≠ true := by
  constructor
  · exact ((region_color_check_logic ⟨"ANY_TARGET_MET_THRESHOLD", [⟨"#ff0000", 50⟩], 75⟩
      (fun _ => 60)).1 rfl).mpr ⟨⟨"#ff0000", 50⟩, by simp, by norm_num⟩
  · intro hcon
    have := ((region_color_check_logic ⟨"TOTAL_PERCENTAGE_ABOVE_THRESHOLD",
        [⟨"#ff0000", 50⟩], 75⟩ (fun _ => 60)).2.2 rfl).mp hcon
    simp only [List.map_cons, List.map_nil, List.sum_cons, List.sum_nil] at this
    norm_num at this

/-- A Python value stored under a region key of `params`: either `int(v)`
succeeds with value `n`, or `int(v)` raises `ValueError`/`TypeError`
(a non-integer coordinate). -/
inductive PyNum where
  | intLike (n : Int)
  | badValue
deriving DecidableEq, Repr

/-- The four region keys of a condition's `params` dict (`none` = key
absent). -/
structure RegionParams where
  region_x1 : Option PyNum
  region_y1 : Option PyNum
  region_x2 : Option PyNum
  region_y2 : Option PyNum
deriving DecidableEq, Repr

/-- `int(v)` on a stored value. -/
def convInt : PyNum → Option Int
  | .intLike n => some n
  | .badValue => none

/-- `int(self.params.get(key, default))` (the defaults are already ints). -/
def convWithDefault : Option PyNum → Int → Option Int
  | some v, _ => convInt v
  | none, d => some d

/-- `Condition._validate_basic_params` (`core/condition.py`): when any region
key is present, convert `x1`, `y1`, `x2` (default `x1 + 1`), `y2` (default
`y1 + 1`) in order — a failing conversion is caught by the
`except (ValueError, TypeError)` handler, which records a type error
instead of raising — then require `x1 < x2` and `y1 < y2`.
Returns (`_is_valid`, `_validation_error`). -/
def validateBasicParams (p : RegionParams) : Bool × Option String :=
  if p.region_x1 = none ∧ p.region_y1 = none ∧ p.region_x2 = none ∧ p.region_y2 = none then
    (true, none)
  else
    match convWithDefault p.region_x1 0 with
    | none => (false, some "Invalid region coordinate types")
    | some x1 =>
      match convWithDefault p.region_y1 0 with
      | none => (false, some "Invalid region coordinate types")
      | some y1 =>
        match convWithDefault p.region_x2 (x1 + 1) with
        | none => (false, some "Invalid region coordinate types")
        | some x2 =>
          match convWithDefault p.region_y2 (y1 + 1) with
          | none => (false, some "Invalid region coordinate types")
          | some y2 =>
            if x2 ≤ x1 ∨ y2 ≤ y1 then
              (false, some "Invalid region: x2 must be > x1 and y2 must be > y1")
            else (true, none)

/-- The base-class validity state set by `Condition.__init__`
(`_is_valid`, `_validation_error`). -/
structure BaseCondition where
  isValid : Bool
  validationError : Option String
deriving DecidableEq, Repr

/-- `Condition.__init__` restricted to its validation effect on the region
params (it completes without raising; conversion errors are recorded in
the flags). -/
def mkBaseCondition (p : RegionParams) : BaseCondition :=
  ⟨(validateBasicParams p).1, (validateBasicParams p).2⟩

/-- A subclass `check()` call: every subtype first runs the base
`Condition.check`, which returns `False` for an invalid condition, and
only then its type-specific logic (abstracted as `specific`). -/
def conditionCheck (c : BaseCondition) (specific : Bool) : Bool :=
  if c.isValid = false then false else specific

/-- **C8**: a condition constructed with region parameters where
`region_x2 <= region_x1` or `region_y2 <= region_y1`, or with a
non-integer region coordinate, completes construction with the invalid
flag set and a validation-error message recorded, and every subsequent
`check()` call returns `False` whatever the type-specific logic would
say. -/
theorem validateBasicParams_shape (p : RegionParams) :
    validateBasicParams p = (true, none) ∨
    ∃ msg, validateBasicParams p = (false, some msg) := by
  rw [validateBasicParams]
  split
  · exact Or.inl rfl
  · split
    · exact Or.inr ⟨_, rfl⟩
    · split
      · exact Or.inr ⟨_, rfl⟩
      · split
        · exact Or.inr ⟨_, rfl⟩
        · split
          · exact Or.inr ⟨_, rfl⟩
          · split
            · exact Or.inr ⟨_, rfl⟩
            · exact Or.inl rfl

theorem validateBasicParams_bad (p : RegionParams)
    (hbad : p.region_x1 = some PyNum.badValue ∨ p.region_y1 = some PyNum.badValue ∨
      p.region_x2 = some PyNum.badValue ∨ p.region_y2 = some PyNum.badValue) :
    (validateBasicParams p).1 = false := by
  by_contra hne
  have htrue : (validateBasicParams p).1 = true := by
    cases hvb : (validateBasicParams p).1 with
    | true => rfl
    | false => exact absurd hvb hne
  rw [validateBasicParams] at htrue
  split at htrue
  · next hall =>
    rcases hbad with h | h | h | h <;> simp [h] at hall
  · split at htrue
    · simp at htrue
    · next x1 heq1 =>
      split at htrue
      · simp at htrue
      · next y1 heq2 =>
        split at htrue
        · simp at htrue
        · next x2v heq3 =>
          split at htrue
          · simp at htrue
          · next y2v heq4 =>
            rcases hbad with h | h | h | h <;>
              simp_all [convWithDefault, convInt]

/-- **C8**: a condition constructed with region parameters where
`region_x2 <= region_x1` or `region_y2 <= region_y1`, or with a
non-integer region coordinate, completes construction with the invalid
flag set and a validation-error message recorded, and every subsequent
`check()` call returns `False` whatever the type-specific logic would
say. -/
theorem condition_invalid_region_check_false :
    (∀ a b x2v y2v : Int,
        x2v ≤ a ∨ y2v ≤ b →
        (mkBaseCondition ⟨some (PyNum.intLike a), some (PyNum.intLike b),
            some (PyNum.intLike x2v), some (PyNum.intLike y2v)⟩).isValid = false ∧
        (mkBaseCondition ⟨some (PyNum.intLike a), some (PyNum.intLike b),
            some (PyNum.intLike x2v), some (PyNum.intLike y2v)⟩).validationError ≠ none ∧
        ∀ specific : Bool,
          conditionCheck (mkBaseCondition ⟨some (PyNum.intLike a), some (PyNum.intLike b),
            some (PyNum.intLike x2v), some (PyNum.intLike y2v)⟩) specific = false) ∧
    (∀ p : RegionParams,
        (p.region_x1 = some PyNum.badValue ∨ p.region_y1 = some PyNum.badValue ∨
         p.region_x2 = some PyNum.badValue ∨ p.region_y2 = some PyNum.badValue) →
        (mkBaseCondition p).isValid = false ∧
        (mkBaseCondition p).validationError ≠ none ∧
        ∀ specific : Bool, conditionCheck (mkBaseCondition p) specific = false) := by
  constructor
  · intro a b x2v y2v hle
    have hv : validateBasicParams ⟨some (PyNum.intLike a), some (PyNum.intLike b),
        some (PyNum.intLike x2v), some (PyNum.intLike y2v)⟩ =
        (false, some "Invalid region: x2 must be > x1 and y2 must be > y1") := by
      rw [validateBasicParams]
      rw [if_neg (by simp)]
      simp only [convWithDefault, convInt]
      rw [if_pos hle]
    refine ⟨by rw [mkBaseCondition, hv], by rw [mkBaseCondition, hv]; simp, ?_⟩
    intro specific
    rw [conditionCheck, if_pos (by rw [mkBaseCondition, hv])]
  · intro p hbad
    have hfalse : (validateBasicParams p).1 = false := validateBasicParams_bad p hbad
    have herr : (validateBasicParams p).2 ≠ none := by
      rcases validateBasicParams_shape p with h | ⟨msg, h⟩
      · rw [h] at hfalse
        simp at hfalse
      · rw [h]
        simp
    refine ⟨hfalse, herr, ?_⟩
    intro specific
    rw [conditionCheck, if_pos (by rw [mkBaseCondition]; exact hfalse)]

/-- Witness for the invalid-region theorem: a degenerate region
`x1 = 5, x2 = 5` yields an invalid condition whose check is always
`False`; a non-integer `region_y2` likewise. -/
theorem condition_invalid_region_check_false_witness :
    conditionCheck (mkBaseCondition ⟨some (PyNum.intLike 5), some (PyNum.intLike 0),
      some (PyNum.intLike 5), some (PyNum.intLike 10)⟩) true = false ∧
    conditionCheck (mkBaseCondition ⟨some (PyNum.intLike 0), some (PyNum.intLike 0),
      some (PyNum.intLike 10), some PyNum.badValue⟩) true = false :=
  ⟨(condition_invalid_region_check_false.1 5 0 5 10 (Or.inl le_rfl)).2.2 true,
   (condition_invalid_region_check_false.2
      ⟨some (PyNum.intLike 0), some (PyNum.intLike 0),
       some (PyNum.intLike 10), some PyNum.badValue⟩
      (Or.inr (Or.inr (Or.inr rfl)))).2.2 true⟩

/-- A complete newline-terminated response line received by
`OSInteractionClient._send_request` (`python_csharp_bridge.py`):
the empty line, a non-empty line that `json.loads` rejects, a line that is
valid JSON but not a JSON object (so `response.get` raises
`AttributeError`), or a JSON object with its `Status` value (`none` for a
missing or non-string status, which compares unequal to both
`"Success"` and `"Error"`) and its opaque `Result` payload. -/
inductive RespLine where
  | emptyLine
  | badJson
  | jsonNonObject
  | jsonObject (status : Option String) (result : Option String)
deriving DecidableEq, Repr

/-- Outcome of the pipe read loop: no complete newline-terminated line
within the timeout (with or without partial data) or a complete line. -/
inductive ReadOutcome where
  | timeoutNoData
  | timeoutPartial
  | line (l : RespLine)
deriving DecidableEq, Repr

/-- The typed exceptions `_send_request` can raise on these paths. -/
inductive BridgeError where
  | connectionRefused
  | timeoutError (hadPartialData : Bool)
  | serviceError
  | unexpectedStatus
  | invalidJson
  | unexpectedBridgeError
deriving DecidableEq, Repr

/-- `OSInteractionClient._send_request`, for the connect/read/parse paths
(a successful pipe write is assumed; write failures raise their own typed
errors before any of the modelled branches): a failed connect raises
`ConnectionRefusedError`; a read timeout raises `TimeoutError`; a received
line is processed by the `if response_json_line:` block — note the empty
line is falsy in Python and therefore follows the timeout branch; a JSON
parse failure raises `ValueError`; a non-object JSON value makes
`response.get` raise `AttributeError`, converted to a generic
`RuntimeError` by the catch-all handler; `Status == "Success"` returns the
`Result` payload; `Status == "Error"` raises `RuntimeError`; any other
status raises `ValueError`. -/
def send_request (connected : Bool) (read : ReadOutcome) :
    Except BridgeError (Option String) :=
  if connected = false then .error .connectionRefused
  else
    match read with
    | .timeoutNoData => .error (.timeoutError false)
    | .timeoutPartial => .error (.timeoutError true)
    | .line l =>
      match l with
      | .emptyLine => .error (.timeoutError false)
      | .badJson => .error .invalidJson
      | .jsonNonObject => .error .unexpectedBridgeError
      | .jsonObject status result =>
        if status = some "Success" then .ok result
        else if status = some "Error" then .error .serviceError
        else .error .unexpectedStatus

/-- Whether a `BridgeError` corresponds to a Python `ValueError`. -/
def isValueError : BridgeError → Bool
  | .invalidJson => true
  | .unexpectedStatus => true
  | _ => false

/-- Counterexample to **C9** as stated: an empty (hence malformed-JSON)
newline-terminated response line does arrive, yet `_send_request` raises
`TimeoutError` ("No data received"), not `ValueError` — the
`if response_json_line:` truthiness test treats the empty line like a
timeout. -/
theorem bridge_empty_line_not_value_error :
    send_request true (ReadOutcome.line RespLine.emptyLine) =
      Except.error (BridgeError.timeoutError false) ∧
    ∀ e : BridgeError,
      send_request true (ReadOutcome.line RespLine.emptyLine) = Except.error e →
      isValueError e = false := by
  refine ⟨rfl, ?_⟩
  intro e he
  have : BridgeError.timeoutError false = e := by
    have h1 : send_request true (ReadOutcome.line RespLine.emptyLine) =
        Except.error (BridgeError.timeoutError false) := rfl
    rw [h1] at he
    exact Except.error.inj he
  rw [← this]
  rfl

/-- **C9 (amended)**: the full error classification of `_send_request`:
connect failure raises `ConnectionRefusedError`; a read timeout — and
also an empty response line, which the `if response_json_line:` truthiness
test treats as no data — raises `TimeoutError`; `Status == "Success"`
returns the `Result` field; `Status == "Error"` raises `RuntimeError`;
a non-empty malformed JSON line or any other status raises `ValueError`;
a line that is valid JSON but not an object raises the generic bridge
`RuntimeError`. -/
theorem bridge_send_request_error_classification (connected : Bool) (read : ReadOutcome) :
    (connected = false → send_request connected read = .error .connectionRefused) ∧
    (connected = true →
      (read = .timeoutNoData → send_request connected read = .error (.timeoutError false)) ∧
      (read = .timeoutPartial → send_request connected read = .error (.timeoutError true)) ∧
      (read = .line .emptyLine → send_request connected read = .error (.timeoutError false)) ∧
      (read = .line .badJson → send_request connected read = .error .invalidJson ∧
        isValueError .invalidJson = true) ∧
      (read = .line .jsonNonObject →
        send_request connected read = .error .unexpectedBridgeError) ∧
      (∀ res, read = .line (.jsonObject (some "Success") res) →
        send_request connected read = .ok res) ∧
      (∀ res, read = .line (.jsonObject (some "Error") res) →
        send_request connected read = .error .serviceError) ∧
      (∀ st res, st ≠ some "Success" → st ≠ some "Error" →
        read = .line (.jsonObject st res) →
        send_request connected read = .error .unexpectedStatus ∧
        isValueError .unexpectedStatus = true)) := by
  constructor
  · intro hc
    rw [send_request.eq_def, if_pos (by rw [hc])]
  · intro hc
    have hcr : ∀ r : ReadOutcome, send_request connected r =
        (match r with
         | .timeoutNoData => .error (.timeoutError false)
         | .timeoutPartial => .error (.timeoutError true)
         | .line l =>
           match l with
           | .emptyLine => .error (.timeoutError false)
           | .badJson => .error .invalidJson
           | .jsonNonObject => .error .unexpectedBridgeError
           | .jsonObject status result =>
             if status = some "Success" then .ok result
             else if status = some "Error" then .error .serviceError
             else .error .unexpectedStatus) := by
      intro r
      rw [send_request.eq_def, if_neg (by rw [hc]; simp)]
    refine ⟨?_, ?_, ?_, ?_, ?_, ?_, ?_, ?_⟩
    · intro hr; rw [hr, hcr]
    · intro hr; rw [hr, hcr]
    · intro hr; rw [hr, hcr]
    · intro hr; exact ⟨by rw [hr, hcr], rfl⟩
    · intro hr; rw [hr, hcr]
    · intro res hr
      rw [hr, hcr]
      show (if (some "Success" : Option String) = some "Success" then
          (Except.ok res : Except BridgeError (Option String))
        else if (some "Success" : Option String) = some "Error" then .error .serviceError
        else .error .unexpectedStatus) = .ok res
      rw [if_pos rfl]
    · intro res hr
      rw [hr, hcr]
      show (if (some "Error" : Option String) = some "Success" then
          (Except.ok res : Except BridgeError (Option String))
        else if (some "Error" : Option String) = some "Error" then .error .serviceError
        else .error .unexpectedStatus) = .error .serviceError
      rw [if_neg (by simp), if_pos rfl]
    · intro st res hs he hr
      refine ⟨?_, rfl⟩
      rw [hr, hcr]
      show (if st = some "Success" then
          (Except.ok res : Except BridgeError (Option String))
        else if st = some "Error" then .error .serviceError
        else .error .unexpectedStatus) = .error .unexpectedStatus
      rw [if_neg hs, if_neg he]

/-- Witness for the amended bridge theorem: a Success envelope returns its
result, an Error envelope raises the service `RuntimeError`, and an
unknown status raises `ValueError`. -/
theorem bridge_send_request_error_classification_witness :
    send_request true (ReadOutcome.line (RespLine.jsonObject (some "Success") (some "42"))) =
      Except.ok (some "42") ∧
    send_request true (ReadOutcome.line (RespLine.jsonObject (some "Error") none)) =
      Except.error BridgeError.serviceError ∧
    send_request true (ReadOutcome.line (RespLine.jsonObject (some "Weird") none)) =
      Except.error BridgeError.unexpectedStatus :=
  ⟨(bridge_send_request_error_classification true
      (ReadOutcome.line (RespLine.jsonObject (some "Success") (some "42")))).2 rfl
      |>.2.2.2.2.2.1 (some "42") rfl,
   (bridge_send_request_error_classification true
      (ReadOutcome.line (RespLine.jsonObject (some "Error") none))).2 rfl
      |>.2.2.2.2.2.2.1 none rfl,
   ((bridge_send_request_error_classification true
      (ReadOutcome.line (RespLine.jsonObject (some "Weird") none))).2 rfl
      |>.2.2.2.2.2.2.2 (some "Weird") none (by decide) (by decide) rfl).1⟩

end RPA
